import Mathlib

/-!
# Peekalo: the document analyzer (`web_analyzer_server/analyzer/analyzer.go`)

A shallow embedding of the analyzer and proofs about its five extractors
(HTML version, page title, heading counts, link statistics, login form) and
about `AnalyzeURL`, which runs them and assembles the report.

Conventions of the embedding:

* a Go `string` is a Lean `String` (valid UTF-8 text);
* a Go `int` counter is a `Nat`: every counter here is bounded by the number of
  nodes of a tree held in memory, far below `2^63`;
* the document tree of `golang.org/x/net/html` is an inductive type whose
  `children` list is the `FirstChild` / `NextSibling` chain;
* the packages the analyzer imports (`strings`, `net/url`, `net/http`,
  `golang.org/x/net/html`) are not part of the repository: the string functions
  are written out below, the URL library and the HTTP / parsing collaborators are
  parameters of the definitions that call them;
* a goroutine is described by what it leaves behind: the values it sent on its
  result channel and the number of times it called `wg.Done()`.
-/

/-! ## Go standard library: `unicode` and `strings` -/

namespace unicode

/-- Go `unicode.IsSpace`: the Latin-1 white space `\t \n \v \f \r`, space, U+0085,
U+00A0, and the other code points with the Unicode `White_Space` property. -/
def IsSpace (r : Char) : Bool :=
  r.toNat == 0x09 || r.toNat == 0x0A || r.toNat == 0x0B || r.toNat == 0x0C ||
  r.toNat == 0x0D || r.toNat == 0x20 || r.toNat == 0x85 || r.toNat == 0xA0 ||
  r.toNat == 0x1680 || (decide (0x2000 ≤ r.toNat) && decide (r.toNat ≤ 0x200A)) ||
  r.toNat == 0x2028 || r.toNat == 0x2029 || r.toNat == 0x202F || r.toNat == 0x205F ||
  r.toNat == 0x3000

/-- Go `unicode.ToLower`, tabulated for every code point whose lower case is an
ASCII letter: `A`..`Z`, U+0130 (capital I with dot, lower case `i`) and U+212A
(Kelvin sign, lower case `k`). Any other code point is returned as it is; its
lower case in Go is not an ASCII character either, so the containment tests of the
analyzer, all against ASCII literals, do not depend on it. -/
def ToLower (r : Char) : Char :=
  if 0x41 ≤ r.toNat ∧ r.toNat ≤ 0x5A then Char.ofNat (r.toNat + 0x20)
  else if r.toNat = 0x130 then 'i'
  else if r.toNat = 0x212A then 'k'
  else r

/-- The representative of a code point under Unicode simple case folding, as Go's
`strings.EqualFold` compares them (`unicode.SimpleFold` orbits), tabulated for the
orbits of the ASCII letters: `A`..`Z` fold to `a`..`z`, U+017F (long s) to `s`
and U+212A (Kelvin sign) to `k`. Other code points are their own representative. -/
def foldRune (r : Char) : Char :=
  if 0x41 ≤ r.toNat ∧ r.toNat ≤ 0x5A then Char.ofNat (r.toNat + 0x20)
  else if r.toNat = 0x17F then 's'
  else if r.toNat = 0x212A then 'k'
  else r

/-- The representative of a code point under Unicode simple case folding for every
code point: `foldRune` on ASCII and on the two other code points of the orbits of
ASCII letters (U+017F, U+212A), and `table` elsewhere. `table` stands for the case
tables of package `unicode`, which are not written out: it sends a code point to a
representative of its `unicode.SimpleFold` orbit, so that two code points are equal
under simple folding exactly when their representatives are equal. -/
def foldRuneBy (table : Char → Char) (r : Char) : Char :=
  if r.toNat < 0x80 ∨ r.toNat = 0x17F ∨ r.toNat = 0x212A then foldRune r else table r

end unicode

namespace strings

/-- Go `strings.ToLower`: every code point mapped through `unicode.ToLower`. -/
def ToLower (s : String) : String := String.mk (s.data.map unicode.ToLower)

/-- Go `strings.HasPrefix` on the code points of the two strings. -/
def hasPrefixList : List Char → List Char → Bool
  | _, [] => true
  | [], _ :: _ => false
  | c :: s, d :: p => c == d && hasPrefixList s p

/-- Go `strings.HasPrefix(s, prefix)`. -/
def HasPrefix (s pre : String) : Bool := hasPrefixList s.data pre.data

/-- Go `strings.Contains` on the code points of the two strings: `substr` starts
at some position of `s`. -/
def containsList : List Char → List Char → Bool
  | [], substr => hasPrefixList [] substr
  | c :: s, substr => hasPrefixList (c :: s) substr || containsList s substr

/-- Go `strings.Contains(s, substr)`. -/
def Contains (s substr : String) : Bool := containsList s.data substr.data

/-- Go `strings.TrimSpace`: leading and trailing white space removed. -/
def TrimSpace (s : String) : String :=
  String.mk ((s.data.dropWhile unicode.IsSpace).reverse.dropWhile unicode.IsSpace).reverse

/-- Go `strings.EqualFold` with the folding of `unicode.foldRune`: the two strings
have the same number of code points and are equal position by position under simple
case folding. It is Go's function whenever one of the two strings is made of ASCII
characters, as the literal "password" is. -/
def equalFoldList : List Char → List Char → Bool
  | [], [] => true
  | [], _ :: _ => false
  | _ :: _, [] => false
  | sr :: s, tr :: t => unicode.foldRune sr == unicode.foldRune tr && equalFoldList s t

/-- Go `strings.EqualFold(s, t)` for `t` (or `s`) an ASCII string. -/
def EqualFold (s t : String) : Bool := equalFoldList s.data t.data

/-- Go `strings.EqualFold` on the code points of two arbitrary strings, with the case
tables of package `unicode` given by `table` (see `unicode.foldRuneBy`). -/
def equalFoldListBy (table : Char → Char) : List Char → List Char → Bool
  | [], [] => true
  | [], _ :: _ => false
  | _ :: _, [] => false
  | sr :: s, tr :: t =>
    unicode.foldRuneBy table sr == unicode.foldRuneBy table tr && equalFoldListBy table s t

/-- Go `strings.EqualFold(s, t)` for arbitrary strings, over the case tables `table`. -/
def EqualFoldBy (table : Char → Char) (s t : String) : Bool :=
  equalFoldListBy table s.data t.data

end strings

/-! ## `golang.org/x/net/html`: the document tree -/

namespace html

/-- Go `html.NodeType`. -/
inductive NodeType where
  | ErrorNode
  | TextNode
  | DocumentNode
  | ElementNode
  | CommentNode
  | DoctypeNode
  | RawNode
deriving DecidableEq, Repr

/-- Go `html.Attribute`. -/
structure Attribute where
  Namespace : String
  Key : String
  Val : String
deriving DecidableEq, Repr

/-- Go `html.Node`, with the fields the analyzer reads: `Type` (here `Typ`),
`Data`, `Attr`, and the children in sibling order (the `FirstChild`,
`NextSibling` chain). A value of this type is a finite tree. -/
inductive Node where
  | mk (Typ : NodeType) (Data : String) (Attr : List Attribute) (children : List Node)

namespace Node

/-- Field `n.Type`. -/
def Typ : Node → NodeType
  | mk t _ _ _ => t

/-- Field `n.Data`. -/
def Data : Node → String
  | mk _ d _ _ => d

/-- Field `n.Attr`. -/
def Attr : Node → List Attribute
  | mk _ _ a _ => a

/-- The chain `n.FirstChild`, `.NextSibling`, ... -/
def children : Node → List Node
  | mk _ _ _ cs => cs

mutual
/-- All nodes of the tree rooted at `n`, in document order (`n` first). -/
def subtree : Node → List Node
  | mk t d a cs => mk t d a cs :: subtreeList cs
/-- All nodes of the trees rooted at the nodes of a sibling chain, in document order. -/
def subtreeList : List Node → List Node
  | [] => []
  | c :: cs => subtree c ++ subtreeList cs
end

/-- Whether `n` is an element with tag `tag`: `n.Type == html.ElementNode && n.Data == tag`. -/
def isElement (n : Node) (tag : String) : Bool :=
  n.Typ = NodeType.ElementNode ∧ n.Data = tag

end Node

end html

/-! ## `net/url` and `net/http`: the collaborators of the analyzer -/

namespace url

/-- Go `url.Userinfo`. -/
structure Userinfo where
  username : String
  password : String
  passwordSet : Bool
deriving DecidableEq, Repr

/-- Go `url.URL`. The analyzer reads `Scheme` and `Host` only. -/
structure URL where
  Scheme : String
  Opaque : String
  User : Option Userinfo
  Host : String
  Path : String
  RawQuery : String
  Fragment : String
deriving DecidableEq, Repr

/-- The parts of the Go standard library that the link classification calls and
that are not written out in this file; the analyzer is embedded for arbitrary ones.
`Parse rawURL` is `url.Parse(rawURL)` (an error is its message),
`ResolveReference u ref` is `u.ResolveReference(ref)`, and `FoldClass` stands for
the case tables of package `unicode` that `strings.EqualFold` consults for the code
points outside the orbits of the ASCII letters (see `unicode.foldRuneBy`). -/
structure Library where
  Parse : String → Except String URL
  ResolveReference : URL → URL → URL
  FoldClass : Char → Char

end url

namespace http

/-- Go `http.Request`, as far as `AnalyzeURL` builds it: a method and a URL. -/
structure Request where
  Method : String
  URL : String
deriving DecidableEq, Repr

/-- Go `http.Response`, as far as `AnalyzeURL` reads it: the body. -/
structure Response where
  StatusCode : Nat
  Body : String
deriving DecidableEq, Repr

end http

/-! ## The analyzer -/

namespace analyzer

open html

/-- Go `LinkStats`. -/
structure LinkStats where
  Internal : Nat
  External : Nat
  Inaccessible : Nat
deriving DecidableEq, Repr

/-- A Go `map[string]int`, as the list of its entries; its keys are distinct. -/
abbrev HeadingMap := List (String × Nat)

/-- Go `PageInfo`. -/
structure PageInfo where
  HTMLVersion : String
  Title : String
  Headings : HeadingMap
  Links : LinkStats
  HasLogin : Bool
deriving DecidableEq, Repr

/-- The zero value `PageInfo{}`. -/
def PageInfo.zero : PageInfo :=
  { HTMLVersion := "", Title := "", Headings := [], Links := ⟨0, 0, 0⟩, HasLogin := false }

/-- The collaborators `AnalyzeURL` calls besides `net/url`: request construction,
the HTTP client of the analyzer (`a.httpClient.Do`) and `html.Parse` applied to a
response body. An error is its message. -/
structure Env where
  NewRequestWithContext : String → String → Except String http.Request
  Do : http.Request → Except String http.Response
  Parse : String → Except String Node

/-- The two places where an extractor polls the context. -/
inductive Checkpoint where
  | entry
  | publish
deriving DecidableEq, Repr

/-- The context as one goroutine observes it: whether `ctx.Done()` is closed at
each of its two polls. -/
abbrev Context := Checkpoint → Bool

/-- Go `context.Background()`: never cancelled. -/
def Context.Background : Context := fun _ => false

/-- Source `isCancelled`: a non-blocking poll of `ctx.Done()`. -/
def isCancelled (ctx : Context) (cp : Checkpoint) : Bool := ctx cp

/-- What a goroutine started by `AnalyzeURL` leaves behind: the values it sent on
its result channel, in order, and the number of its calls of `wg.Done()`. -/
structure Goroutine (α : Type) where
  sent : List α
  done : Nat
deriving DecidableEq, Repr

/-! ### getHeadingsCount -/

/-- The test `_, exists := headings[key]`. -/
def HeadingMap.exists (headings : HeadingMap) (key : String) : Bool :=
  headings.any (fun e => e.1 == key)

/-- The statement `headings[key]++` for a key of the map. -/
def HeadingMap.incr (headings : HeadingMap) (key : String) : HeadingMap :=
  headings.map (fun e => if e.1 = key then (e.1, e.2 + 1) else e)

/-- The read `headings[key]`: the zero value for a missing key. -/
def HeadingMap.get (headings : HeadingMap) (key : String) : Nat :=
  (headings.lookup key).getD 0

mutual
/-- The closure `traverse` of `getHeadingsCount`, with the map it updates. -/
def getHeadingsCount.traverse : Node → HeadingMap → HeadingMap
  | .mk t d _ cs, headings =>
    getHeadingsCount.traverseChildren cs
      (if t = NodeType.ElementNode then
        (if headings.exists d then headings.incr d else headings)
      else headings)
/-- The loop `for c := n.FirstChild; c != nil; c = c.NextSibling` of that closure. -/
def getHeadingsCount.traverseChildren : List Node → HeadingMap → HeadingMap
  | [], headings => headings
  | c :: cs, headings =>
    getHeadingsCount.traverseChildren cs (getHeadingsCount.traverse c headings)
end

/-- Source `getHeadingsCount`. -/
def getHeadingsCount (ctx : Context) (doc : Node) : Goroutine HeadingMap :=
  if isCancelled ctx .entry then ⟨[], 1⟩
  else
    let headings : HeadingMap :=
      [("h1", 0), ("h2", 0), ("h3", 0), ("h4", 0), ("h5", 0), ("h6", 0)]
    let headings := getHeadingsCount.traverse doc headings
    if isCancelled ctx .publish then ⟨[], 1⟩
    else ⟨[headings], 1⟩

/-! ### getPageTitle -/

/-- The inner loop of `getPageTitle` over the children of the `html` element:
the first `head` element, if any. -/
def getPageTitle.findHead : List Node → Option Node
  | [] => none
  | hc :: rest =>
    if hc.Typ = NodeType.ElementNode ∧ hc.Data = "head" then some hc
    else getPageTitle.findHead rest

/-- The outer loop of `getPageTitle` over the children of the document: it stops
at the first `html` element and searches its children. -/
def getPageTitle.findHtml : List Node → Option Node
  | [] => none
  | c :: rest =>
    if c.Typ = NodeType.ElementNode ∧ c.Data = "html" then getPageTitle.findHead c.children
    else getPageTitle.findHtml rest

/-- The loop of `getPageTitle` over the children of `head`; `title` is the
variable it assigns. -/
def getPageTitle.findTitle (title : String) : List Node → String
  | [] => title
  | c :: rest =>
    if c.Typ = NodeType.ElementNode ∧ c.Data = "title" then
      match c.children with
      | firstChild :: _ => firstChild.Data
      | [] => getPageTitle.findTitle title rest
    else getPageTitle.findTitle title rest

/-- Source `getPageTitle`. -/
def getPageTitle (ctx : Context) (doc : Node) : Goroutine String :=
  if isCancelled ctx .entry then ⟨[], 1⟩
  else
    let head := getPageTitle.findHtml doc.children
    let title :=
      match head with
      | some head => getPageTitle.findTitle "" head.children
      | none => ""
    if isCancelled ctx .publish then ⟨[], 1⟩
    else ⟨[title], 1⟩

/-! ### getHTMLVersion -/

/-- The `switch` of `getHTMLVersion` on the lower-cased doctype; `version` is the
variable it assigns. -/
def getHTMLVersion.switch (version doctype : String) : String :=
  if strings.Contains doctype "html 2.0" then "HTML 2"
  else if strings.Contains doctype "html 3.2" then "HTML 3"
  else if strings.Contains doctype "html 4.01" then "HTML 4"
  else if strings.Contains doctype "html" then "HTML 5"
  else version

/-- The loop of `getHTMLVersion` over the children of the document. -/
def getHTMLVersion.scan (version : String) : List Node → String
  | [] => version
  | c :: rest =>
    if c.Typ = NodeType.DoctypeNode then
      getHTMLVersion.switch version (strings.ToLower c.Data)
    else getHTMLVersion.scan version rest

/-- Source `getHTMLVersion`. -/
def getHTMLVersion (ctx : Context) (doc : Node) : Goroutine String :=
  if isCancelled ctx .entry then ⟨[], 1⟩
  else
    let version := getHTMLVersion.scan "Unknown" doc.children
    if isCancelled ctx .publish then ⟨[], 1⟩
    else ⟨[version], 1⟩

/-! ### getLinkStats -/

/-- The loop `for _, attr := range n.Attr` of `getLinkStats`, run on an `a`
element; `stats` is the variable it updates. Attributes other than `href` are
skipped (`continue`); every path through the body for an `href` ends in `break`. -/
def getLinkStats.rangeAttr (lib : url.Library) (baseURL : url.URL) :
    List Attribute → LinkStats → LinkStats
  | [], stats => stats
  | attr :: rest, stats =>
    if attr.Key ≠ "href" then getLinkStats.rangeAttr lib baseURL rest stats
    else
      let href := strings.TrimSpace attr.Val
      if href = "" ∨ strings.HasPrefix href "#" then
        { stats with Inaccessible := stats.Inaccessible + 1 }
      else
        match lib.Parse href with
        | .error _ => { stats with Inaccessible := stats.Inaccessible + 1 }
        | .ok linkURL =>
          let resolved := lib.ResolveReference baseURL linkURL
          let scheme := strings.ToLower resolved.Scheme
          if scheme = "http" ∨ scheme = "https" then
            if strings.EqualFoldBy lib.FoldClass resolved.Host baseURL.Host then
              { stats with Internal := stats.Internal + 1 }
            else
              { stats with External := stats.External + 1 }
          else
            { stats with Inaccessible := stats.Inaccessible + 1 }

mutual
/-- The closure `traverse` of `getLinkStats`, with the statistics it updates. -/
def getLinkStats.traverse (lib : url.Library) (baseURL : url.URL) :
    Node → LinkStats → LinkStats
  | .mk t d attrs cs, stats =>
    getLinkStats.traverseChildren lib baseURL cs
      (if t = NodeType.ElementNode ∧ d = "a" then
        getLinkStats.rangeAttr lib baseURL attrs stats
      else stats)
/-- The loop over the children in that closure. -/
def getLinkStats.traverseChildren (lib : url.Library) (baseURL : url.URL) :
    List Node → LinkStats → LinkStats
  | [], stats => stats
  | child :: cs, stats =>
    getLinkStats.traverseChildren lib baseURL cs
      (getLinkStats.traverse lib baseURL child stats)
end

/-- Source `getLinkStats`. -/
def getLinkStats (lib : url.Library) (ctx : Context) (doc : Node) (baseURL : url.URL) :
    Goroutine LinkStats :=
  if isCancelled ctx .entry then ⟨[], 1⟩
  else
    let stats := getLinkStats.traverse lib baseURL doc ⟨0, 0, 0⟩
    if isCancelled ctx .publish then ⟨[], 1⟩
    else ⟨[stats], 1⟩

/-! ### detectLoginForm -/

mutual
/-- Source `getText`. -/
def getText : Node → String
  | .mk t d _ cs => if t = NodeType.TextNode then d else getText.loop cs ""
/-- The loop of `getText` over the children; `sb` is the string builder. -/
def getText.loop : List Node → String → String
  | [], sb => sb
  | c :: cs, sb => getText.loop cs (sb ++ getText c)
end

/-- The loop `for _, attr := range node.Attr` of `containsPasswordInput`: whether
it sets `found`. -/
def containsPasswordInput.rangeAttr : List Attribute → Bool
  | [] => false
  | attr :: rest =>
    if attr.Key = "type" ∧ strings.EqualFold attr.Val "password" then true
    else containsPasswordInput.rangeAttr rest

mutual
/-- The closure `walk` of `containsPasswordInput`; the Boolean is `found`, before
and after the call. -/
def containsPasswordInput.walk : Node → Bool → Bool
  | .mk t d attrs cs, found =>
    if found then found
    else if t = NodeType.ElementNode ∧ d = "input" ∧ containsPasswordInput.rangeAttr attrs then
      true
    else containsPasswordInput.walkChildren cs found
/-- The loop `for c := node.FirstChild; c != nil && !found; c = c.NextSibling`. -/
def containsPasswordInput.walkChildren : List Node → Bool → Bool
  | [], found => found
  | c :: cs, found =>
    if found then found
    else containsPasswordInput.walkChildren cs (containsPasswordInput.walk c found)
end

/-- Source `containsPasswordInput`. -/
def containsPasswordInput (n : Node) : Bool := containsPasswordInput.walk n false

/-- The condition of `containsLoginAnchor` on the text of an anchor. -/
def containsLoginAnchor.isLoginText (node : Node) : Bool :=
  strings.Contains (strings.ToLower (getText node)) "login" ||
  strings.Contains (strings.ToLower (getText node)) "sign in" ||
  strings.Contains (strings.ToLower (getText node)) "continue with"

mutual
/-- The closure `walk` of `containsLoginAnchor`; the Boolean is `found`, before
and after the call. -/
def containsLoginAnchor.walk : Node → Bool → Bool
  | .mk t d attrs cs, found =>
    if found then found
    else if t = NodeType.ElementNode ∧ d = "a" ∧
        containsLoginAnchor.isLoginText (.mk t d attrs cs) then
      true
    else containsLoginAnchor.walkChildren cs found
/-- The loop `for c := node.FirstChild; c != nil && !found; c = c.NextSibling`. -/
def containsLoginAnchor.walkChildren : List Node → Bool → Bool
  | [], found => found
  | c :: cs, found =>
    if found then found
    else containsLoginAnchor.walkChildren cs (containsLoginAnchor.walk c found)
end

/-- Source `containsLoginAnchor`. -/
def containsLoginAnchor (n : Node) : Bool := containsLoginAnchor.walk n false

mutual
/-- The closure `traverse` of `detectLoginForm`; the Boolean is `found`, before
and after the call. -/
def detectLoginForm.traverse : Node → Bool → Bool
  | .mk t d attrs cs, found =>
    if found then found
    else if t = NodeType.ElementNode ∧ d = "form" ∧
        (containsPasswordInput (.mk t d attrs cs) || containsLoginAnchor (.mk t d attrs cs)) then
      true
    else detectLoginForm.traverseChildren cs found
/-- The loop `for c := n.FirstChild; c != nil && !found; c = c.NextSibling`. -/
def detectLoginForm.traverseChildren : List Node → Bool → Bool
  | [], found => found
  | c :: cs, found =>
    if found then found
    else detectLoginForm.traverseChildren cs (detectLoginForm.traverse c found)
end

/-- Source `detectLoginForm`. -/
def detectLoginForm (ctx : Context) (doc : Node) : Goroutine Bool :=
  if isCancelled ctx .entry then ⟨[], 1⟩
  else
    let found := detectLoginForm.traverse doc false
    if isCancelled ctx .publish then ⟨[], 1⟩
    else ⟨[found], 1⟩

/-! ### AnalyzeURL -/

/-- How a call of `AnalyzeURL` ends: it returns a `PageInfo` and an error (`none`
is `nil`), or it never returns. -/
inductive Outcome where
  | returned (info : PageInfo) (err : Option String)
  | blocked
deriving DecidableEq, Repr

/-- The five goroutines of `AnalyzeURL`. -/
inductive Extractor where
  | version
  | title
  | headings
  | links
  | login
deriving DecidableEq, Repr

/-- A receive `<-ch` after all senders have finished: the first value sent, if
there is one; with none the receive blocks for ever. -/
def receive {α : Type} (g : Goroutine α) : Option α := g.sent.head?

/-- Source `AnalyzeURL`. The context is given by what each of the five goroutines
observes at its polls. After `wg.Add(5)` the call of `wg.Wait()` returns once the
five goroutines have called `wg.Done()`; the report is then built from one receive
on each channel. -/
def AnalyzeURL (lib : url.Library) (env : Env) (ctx : Extractor → Context)
    (pageURL : String) : Outcome :=
  match env.NewRequestWithContext "GET" pageURL with
  | .error err => .returned PageInfo.zero (some ("failed to create request: " ++ err))
  | .ok req =>
    match env.Do req with
    | .error err => .returned PageInfo.zero (some ("failed to fetch URL: " ++ err))
    | .ok resp =>
      match env.Parse resp.Body with
      | .error err => .returned PageInfo.zero (some ("failed to parse HTML: " ++ err))
      | .ok doc =>
        match lib.Parse pageURL with
        | .error err => .returned PageInfo.zero (some ("invalid base URL: " ++ err))
        | .ok parsedURL =>
          let versionCh := getHTMLVersion (ctx .version) doc
          let titleCh := getPageTitle (ctx .title) doc
          let headingCh := getHeadingsCount (ctx .headings) doc
          let linksCh := getLinkStats lib (ctx .links) doc parsedURL
          let loginCh := detectLoginForm (ctx .login) doc
          if versionCh.done + titleCh.done + headingCh.done + linksCh.done + loginCh.done = 5 then
            match receive versionCh, receive titleCh, receive headingCh, receive linksCh,
              receive loginCh with
            | some version, some title, some headings, some links, some login =>
              .returned
                { HTMLVersion := version, Title := title, Headings := headings,
                  Links := links, HasLogin := login } none
            | _, _, _, _, _ => .blocked
          else .blocked

end analyzer

/-! ## Notions used to state the properties -/

namespace analyzer

open html

/-- The number of element nodes with tag `tag` in a list of nodes. -/
def countTag (tag : String) (l : List Node) : Nat :=
  l.countP (fun n => n.isElement tag)

/-- A heading map in which the value of every key has grown by the number of
element nodes of `l` whose tag is that key. -/
def addCounts (l : List Node) (headings : HeadingMap) : HeadingMap :=
  headings.map (fun e => (e.1, e.2 + countTag e.1 l))

/-- Whether `n` is a Doctype node. -/
def isDoctype (n : Node) : Bool := n.Typ = NodeType.DoctypeNode

/-- The first `head` element child of the first `html` element child of the
document, found with `List.find?`. -/
def headOf (doc : Node) : Option Node :=
  (doc.children.find? (fun c => c.isElement "html")).bind
    (fun h => h.children.find? (fun hc => hc.isElement "head"))

/-- The title the specification reads off a `head` element: the text of the first
child of its first `title` element child, and the empty string when there is no
`title` element child or the first child of that element is missing or is not a
Text node. -/
def claimedTitle (head : Node) : String :=
  match head.children.find? (fun c => c.isElement "title") with
  | none => ""
  | some t =>
    match t.children with
    | [] => ""
    | c :: _ => if c.Typ = NodeType.TextNode then c.Data else ""

/-- The `Data` of the first child of the first `title` element child of `head`
that has a child; the empty string when no `title` element child has a child. -/
def titleOf (head : Node) : String :=
  match head.children.find? (fun c => c.isElement "title" && !c.children.isEmpty) with
  | none => ""
  | some t =>
    match t.children with
    | [] => ""
    | c :: _ => c.Data

/-- The three counters of `LinkStats`. -/
inductive LinkClass where
  | internal
  | external
  | inaccessible
deriving DecidableEq, Repr

/-- The statistics with the counter of one class incremented. -/
def LinkStats.bump (stats : LinkStats) : LinkClass → LinkStats
  | .internal => { stats with Internal := stats.Internal + 1 }
  | .external => { stats with External := stats.External + 1 }
  | .inaccessible => { stats with Inaccessible := stats.Inaccessible + 1 }

/-- The value of the first attribute of `n` with key `href`. -/
def firstHref (n : Node) : Option String :=
  (n.Attr.find? (fun attr => attr.Key = "href")).map (fun attr => attr.Val)

/-- The first href of every `a` element of `l` that has one, in the order of `l`. -/
def hrefs (l : List Node) : List String :=
  l.filterMap (fun n => if n.isElement "a" then firstHref n else none)

/-- The ordered classification policy of the specification for an href value `h`
against a base URL. Equality of hosts ignoring case is that of Go's
`strings.EqualFold`, simple case folding of every code point, over the case tables of
the library. -/
def linkPolicy (lib : url.Library) (baseURL : url.URL) (h : String) : LinkClass :=
  if strings.TrimSpace h = "" ∨ strings.HasPrefix (strings.TrimSpace h) "#" then
    .inaccessible
  else
    match lib.Parse (strings.TrimSpace h) with
    | .error _ => .inaccessible
    | .ok ref =>
      let r := lib.ResolveReference baseURL ref
      if strings.ToLower r.Scheme ≠ "http" ∧ strings.ToLower r.Scheme ≠ "https" then
        .inaccessible
      else if strings.EqualFoldBy lib.FoldClass r.Host baseURL.Host then .internal
      else .external

/-- The class of a node for the link statistics: the policy applied to the first
href of an `a` element; no class for an `a` element without href and for any other
node. -/
def anchorClass (lib : url.Library) (baseURL : url.URL) (n : Node) : Option LinkClass :=
  if n.isElement "a" then (firstHref n).map (linkPolicy lib baseURL) else none

/-- The number of nodes of `l` in class `c`. -/
def countClass (lib : url.Library) (baseURL : url.URL) (c : LinkClass) (l : List Node) : Nat :=
  l.countP (fun n => anchorClass lib baseURL n = some c)

/-- The statistics with every counter increased by the number of nodes of `l` in
its class. -/
def addClasses (lib : url.Library) (baseURL : url.URL) (l : List Node) (stats : LinkStats) :
    LinkStats :=
  { Internal := stats.Internal + countClass lib baseURL .internal l,
    External := stats.External + countClass lib baseURL .external l,
    Inaccessible := stats.Inaccessible + countClass lib baseURL .inaccessible l }

/-- Whether `n` is an `a` element carrying at least one attribute with key `href`. -/
def hasHref (n : Node) : Bool :=
  n.isElement "a" && n.Attr.any (fun attr => attr.Key = "href")

/-- The library parses `href` and resolves the result against `base` to a URL
with scheme `scheme` and host `host`. -/
def Resolves (lib : url.Library) (base : url.URL) (href scheme host : String) : Prop :=
  ∃ ref, lib.Parse href = .ok ref ∧
    (lib.ResolveReference base ref).Scheme = scheme ∧
    (lib.ResolveReference base ref).Host = host

/-- An `input` element with a `type` attribute equal to "password" ignoring case. -/
def IsPasswordInput (n : Node) : Prop :=
  n.Typ = NodeType.ElementNode ∧ n.Data = "input" ∧
    ∃ attr ∈ n.Attr, attr.Key = "type" ∧ strings.EqualFold attr.Val "password" = true

/-- An `a` element whose concatenated text, lower-cased, contains "login",
"sign in" or "continue with". -/
def IsLoginAnchor (n : Node) : Prop :=
  n.Typ = NodeType.ElementNode ∧ n.Data = "a" ∧
    (strings.Contains (strings.ToLower (getText n)) "login" = true ∨
     strings.Contains (strings.ToLower (getText n)) "sign in" = true ∨
     strings.Contains (strings.ToLower (getText n)) "continue with" = true)

/-- A `form` element whose subtree contains a password input or a login anchor. -/
def IsLoginForm (f : Node) : Prop :=
  f.Typ = NodeType.ElementNode ∧ f.Data = "form" ∧
    ((∃ i ∈ f.subtree, IsPasswordInput i) ∨ (∃ a ∈ f.subtree, IsLoginAnchor a))

end analyzer

/-! ## Example documents and collaborators -/

namespace examples

open html analyzer

/-- A text node. -/
def text (s : String) : Node := .mk .TextNode s [] []

/-- An element node without attributes. -/
def element (tag : String) (children : List Node) : Node := .mk .ElementNode tag [] children

/-- A doctype node. -/
def doctype (s : String) : Node := .mk .DoctypeNode s [] []

/-- A document node. -/
def document (children : List Node) : Node := .mk .DocumentNode "" [] children

/-- An `a` element with one `href` attribute and a text. -/
def anchor (href label : String) : Node :=
  .mk .ElementNode "a" [⟨"", "href", href⟩] [text label]

/-- The tree of the end-to-end page of the specification:
`<!DOCTYPE html><html><head><title>Test Page</title></head><body><h1>Main
Heading</h1><h2>Subheading</h2><a href="https://external.com">External</a><a
href="/internal">Internal</a><a href="mailto:someone@example.com">Email</a>
<form><input type="password"/></form></body></html>`. -/
def page : Node :=
  document [
    doctype "html",
    element "html" [
      element "head" [element "title" [text "Test Page"]],
      element "body" [
        element "h1" [text "Main Heading"],
        element "h2" [text "Subheading"],
        anchor "https://external.com" "External",
        anchor "/internal" "Internal",
        anchor "mailto:someone@example.com" "Email",
        element "form" [.mk .ElementNode "input" [⟨"", "type", "password"⟩] []]]]]

/-- The base URL `http://example.com` as `url.Parse` returns it. -/
def base : url.URL :=
  { Scheme := "http", Opaque := "", User := none, Host := "example.com", Path := "",
    RawQuery := "", Fragment := "" }

/-- A URL library for the examples. `Parse` is the table of the results of Go's
`url.Parse` on the references that occur in them; `ResolveReference` follows Go's
function for references whose path is empty or absolute and free of dot segments,
as all tabulated ones are; the hosts of the examples are ASCII, so `FoldClass` is
never consulted and is the identity. -/
def library : url.Library where
  Parse := fun rawURL =>
    if rawURL = "http://example.com" then .ok base
    else if rawURL = "https://external.com" then
      .ok { Scheme := "https", Opaque := "", User := none, Host := "external.com", Path := "",
            RawQuery := "", Fragment := "" }
    else if rawURL = "/internal" then
      .ok { Scheme := "", Opaque := "", User := none, Host := "", Path := "/internal",
            RawQuery := "", Fragment := "" }
    else if rawURL = "mailto:someone@example.com" then
      .ok { Scheme := "mailto", Opaque := "someone@example.com", User := none, Host := "",
            Path := "", RawQuery := "", Fragment := "" }
    else .error "reference outside the table"
  ResolveReference := fun u ref =>
    let scheme := if ref.Scheme = "" then u.Scheme else ref.Scheme
    if ref.Scheme ≠ "" ∨ ref.Host ≠ "" ∨ ref.User.isSome then { ref with Scheme := scheme }
    else if ref.Opaque ≠ "" then
      { ref with Scheme := scheme, User := none, Host := "", Path := "" }
    else if ref.Path = "" ∧ u.Opaque ≠ "" then
      { ref with Scheme := scheme, Opaque := u.Opaque, User := none, Host := "", Path := "",
                 RawQuery := if ref.RawQuery = "" then u.RawQuery else ref.RawQuery }
    else
      { ref with Scheme := scheme, Host := u.Host, User := u.User,
                 Path := if ref.Path = "" then u.Path else ref.Path,
                 RawQuery := if ref.Path = "" ∧ ref.RawQuery = "" then u.RawQuery
                             else ref.RawQuery }
  FoldClass := fun r => r

/-- The text of the end-to-end page. -/
def pageHTML : String :=
  "<!DOCTYPE html><html><head><title>Test Page</title></head><body><h1>Main Heading</h1>" ++
  "<h2>Subheading</h2><a href=\"https://external.com\">External</a>" ++
  "<a href=\"/internal\">Internal</a><a href=\"mailto:someone@example.com\">Email</a>" ++
  "<form><input type=\"password\"/></form></body></html>"

/-- Collaborators that serve the end-to-end page: the request is built, the client
answers 200 with `pageHTML`, the only body there is, and the parser yields its tree
`page`. -/
def env : Env where
  NewRequestWithContext := fun method pageURL => .ok ⟨method, pageURL⟩
  Do := fun _ => .ok ⟨200, pageHTML⟩
  Parse := fun _ => .ok page

/-- Three `h1` elements and no other heading. -/
def threeH1 : Node :=
  document [element "html" [element "body" [
    element "h1" [text "a"], element "div" [element "h1" [text "b"]], element "h1" []]]]

/-- A form with `<input type="password">`. -/
def passwordForm : Node :=
  document [element "html" [element "body" [
    element "form" [.mk .ElementNode "input" [⟨"", "type", "password"⟩] []]]]]

/-- A form with an anchor whose text is "Login with Google". -/
def socialForm : Node :=
  document [element "html" [element "body" [
    .mk .ElementNode "form" [⟨"", "action", "/login"⟩] [
      .mk .ElementNode "a" [⟨"", "href", "#"⟩, ⟨"", "class", "btn google"⟩]
        [text "Login with Google"]]]]]

/-- A form with neither a password input nor a login anchor. -/
def plainForm : Node :=
  document [element "html" [element "body" [
    element "form" [
      .mk .ElementNode "input" [⟨"", "type", "text"⟩] [],
      anchor "/help" "Help"]]]]

/-- The tree `html.Parse` builds for an HTML 4.01 Strict page, whose doctype
declaration names `HTML`, the public identifier of the W3C HTML 4.01 DTD and the
system identifier of `strict.dtd`: the parser stores the lower-cased name of the
doctype, `html`, in `Data` and the two identifiers in the attributes `public` and
`system`. -/
def html401Page : Node :=
  document [
    .mk .DoctypeNode "html"
      [⟨"", "public", "-//W3C//DTD HTML 4.01//EN"⟩,
       ⟨"", "system", "http://www.w3.org/TR/html4/strict.dtd"⟩] [],
    element "html" [
      element "head" [element "title" [text "Strict"]],
      element "body" [element "h1" [text "HTML 4.01"]]]]

/-- A document without a doctype child whose `html` element holds a Doctype node. -/
def nestedDoctype : Node :=
  document [element "html" [doctype "html"]]

/-- A document with two doctype children, "foo" and "html". -/
def twoDoctypes : Node :=
  document [doctype "foo", doctype "html", element "html" []]

/-- The `head` of `emptyThenFull`: an empty `title` followed by a `title` with text. -/
def emptyThenFullHead : Node :=
  element "head" [element "title" [], element "title" [text "Second"]]

/-- A document whose head is `emptyThenFullHead`. -/
def emptyThenFull : Node :=
  document [doctype "html", element "html" [emptyThenFullHead, element "body" []]]

/-- A document whose `html` element has no `head` child, with `title` elements
under the document, in the body, and under a second `html` element with a head. -/
def titlesElsewhere : Node :=
  document [
    element "title" [text "under the document"],
    element "html" [element "body" [element "title" [text "in the body"]]],
    element "html" [element "head" [element "title" [text "later html"]]]]

/-- A document whose first head has no `title` child, with a `title` nested deeper
inside that head and one under a later `head` sibling. -/
def titlesBesideHead : Node :=
  document [
    element "html" [
      element "head" [element "div" [element "title" [text "nested"]]],
      element "head" [element "title" [text "later head"]]]]

end examples

/-! ## The join of `AnalyzeURL` under a schedule -/

namespace analyzer

open html

/-- The five result channels (the values sent and not yet received) and the counter
of the wait group of one call of `AnalyzeURL`. -/
structure Join where
  versionCh : List String
  titleCh : List String
  headingCh : List HeadingMap
  linksCh : List LinkStats
  loginCh : List Bool
  wg : Int
deriving DecidableEq, Repr

/-- The channels after `make(chan ..., 1)` five times and `wg.Add(5)`. -/
def Join.init : Join :=
  { versionCh := [], titleCh := [], headingCh := [], linksCh := [], loginCh := [], wg := 5 }

/-- The goroutine of one extractor runs to completion: its values are appended to
its own channel and its calls of `wg.Done()` are subtracted from the counter. -/
def Join.run (lib : url.Library) (ctx : Extractor → Context) (doc : Node)
    (parsedURL : url.URL) (e : Extractor) (s : Join) : Join :=
  match e with
  | .version =>
    let g := getHTMLVersion (ctx .version) doc
    { s with versionCh := s.versionCh ++ g.sent, wg := s.wg - g.done }
  | .title =>
    let g := getPageTitle (ctx .title) doc
    { s with titleCh := s.titleCh ++ g.sent, wg := s.wg - g.done }
  | .headings =>
    let g := getHeadingsCount (ctx .headings) doc
    { s with headingCh := s.headingCh ++ g.sent, wg := s.wg - g.done }
  | .links =>
    let g := getLinkStats lib (ctx .links) doc parsedURL
    { s with linksCh := s.linksCh ++ g.sent, wg := s.wg - g.done }
  | .login =>
    let g := detectLoginForm (ctx .login) doc
    { s with loginCh := s.loginCh ++ g.sent, wg := s.wg - g.done }

/-- The end of `AnalyzeURL`: `wg.Wait()` returns when the counter is zero, then one
value is received from each channel, which blocks on an empty channel. -/
def Join.collect (s : Join) : Outcome :=
  if s.wg = 0 then
    match s.versionCh.head?, s.titleCh.head?, s.headingCh.head?, s.linksCh.head?,
      s.loginCh.head? with
    | some version, some title, some headings, some links, some login =>
      .returned
        { HTMLVersion := version, Title := title, Headings := headings,
          Links := links, HasLogin := login } none
    | _, _, _, _, _ => .blocked
  else .blocked

/-- Source `AnalyzeURL` with the order in which the scheduler lets the five
goroutines run given explicitly: `order` lists the extractors in the order in which
they run and finish. Each goroutine reads only the shared tree and writes only to
its own channel and to the wait group, so a run to completion is one step. -/
def AnalyzeURL.scheduled (lib : url.Library) (env : Env) (ctx : Extractor → Context)
    (pageURL : String) (order : List Extractor) : Outcome :=
  match env.NewRequestWithContext "GET" pageURL with
  | .error err => .returned PageInfo.zero (some ("failed to create request: " ++ err))
  | .ok req =>
    match env.Do req with
    | .error err => .returned PageInfo.zero (some ("failed to fetch URL: " ++ err))
    | .ok resp =>
      match env.Parse resp.Body with
      | .error err => .returned PageInfo.zero (some ("failed to parse HTML: " ++ err))
      | .ok doc =>
        match lib.Parse pageURL with
        | .error err => .returned PageInfo.zero (some ("invalid base URL: " ++ err))
        | .ok parsedURL =>
          Join.collect (order.foldl (fun s e => Join.run lib ctx doc parsedURL e s) Join.init)

/-- The five extractors, in the order of the `go` statements. -/
def Extractor.all : List Extractor := [.version, .title, .headings, .links, .login]

/-! ## Pointer reads of `getPageTitle` -/

/-- A Go `*html.Node`: `none` is `nil`. -/
abbrev Ptr := Option Node

/-- The read `p.Data`, which panics on a nil pointer. -/
def Ptr.Data : Ptr → Except String String
  | none => .error "invalid memory address or nil pointer dereference"
  | some n => .ok n.Data

/-- The field `n.FirstChild`: nil for a node without children. -/
def FirstChild (n : Node) : Ptr := n.children.head?

/-- The loop of `getPageTitle` over the children of `head`, with the test
`c.FirstChild != nil` and the read `c.FirstChild.Data` as the source writes them:
the read fails on a nil pointer. -/
def getPageTitle.findTitleChecked (title : String) : List Node → Except String String
  | [] => .ok title
  | c :: rest =>
    if c.Typ = NodeType.ElementNode ∧ c.Data = "title" ∧ (FirstChild c).isSome then
      Ptr.Data (FirstChild c)
    else getPageTitle.findTitleChecked title rest

/-- The title computed by `getPageTitle`, with the pointer reads checked. -/
def getPageTitle.checked (doc : Node) : Except String String :=
  match getPageTitle.findHtml doc.children with
  | some head => getPageTitle.findTitleChecked "" head.children
  | none => .ok ""

/-! ## Further notions used to state the properties -/

/-- Every Text node of the tree rooted at `n` is a leaf, as in every tree built by
`html.Parse`. -/
def TextLeaves (n : Node) : Prop :=
  ∀ m ∈ n.subtree, m.Typ = NodeType.TextNode → m.children = []

/-- The contents of the Text nodes of a list of nodes, in the order of the list. -/
def textContents (l : List Node) : List String :=
  (l.filter (fun m => decide (m.Typ = NodeType.TextNode))).map Node.Data

mutual
/-- Two trees that differ at most in attributes of `a` elements other than the first
`href` of each: same shape, same types and tags, the same attributes on every node
that is not an `a` element, and on every `a` element the same first href value. -/
def SameFirstHrefs : Node → Node → Prop
  | .mk t d attrs cs, .mk t' d' attrs' cs' =>
    t = t' ∧ d = d' ∧
    (if t = NodeType.ElementNode ∧ d = "a" then
      (attrs.find? (fun attr => attr.Key = "href")).map (fun attr => attr.Val) =
        (attrs'.find? (fun attr => attr.Key = "href")).map (fun attr => attr.Val)
     else attrs = attrs') ∧
    SameFirstHrefsList cs cs'
/-- The relation `SameFirstHrefs` on two sibling chains, position by position. -/
def SameFirstHrefsList : List Node → List Node → Prop
  | [], [] => True
  | [], _ :: _ => False
  | _ :: _, [] => False
  | c :: cs, c' :: cs' => SameFirstHrefs c c' ∧ SameFirstHrefsList cs cs'
end

end analyzer

/-! ## The handler (`web_analyzer_server/handler/analyze.go`) -/

namespace handler

open analyzer

/-- Source `UrlAnalyzeRequest`. -/
structure UrlAnalyzeRequest where
  URL : String
deriving DecidableEq, Repr

/-- Source `APIResponse`; `Data` is `none` when the field is left nil. -/
structure APIResponse where
  Success : Bool
  Data : Option PageInfo
  Error : String
deriving DecidableEq, Repr

/-- The counters of package `metrics`. -/
inductive Counter where
  | RequestInvalidCount
  | RequestReceivedSuccessCount
  | RequestAnalyzerSuccessCount
  | RequestAnalyzerFailureCount
deriving DecidableEq, Repr

/-- The collaborators of the handler besides those of the analyzer: the JSON
decoder applied to the request body (`json.NewDecoder(r.Body).Decode(&req)`) and
the validator (`validate.Struct(req)`, `none` for a nil error). An error is its
message. -/
structure Codec where
  Decode : String → Except String UrlAnalyzeRequest
  Struct : UrlAnalyzeRequest → Option String

/-- What a call of the handler does: it writes a response with a status code and a
body through `respondJSON`, after incrementing counters, or it never responds, after
incrementing counters. -/
inductive Served where
  | responded (statusCode : Nat) (resp : APIResponse) (incremented : List Counter)
  | hung (incremented : List Counter)
deriving DecidableEq, Repr

/-- Go `http.StatusBadRequest`. -/
def StatusBadRequest : Nat := 400

/-- Go `http.StatusInternalServerError`. -/
def StatusInternalServerError : Nat := 500

/-- Go `http.StatusOK`. -/
def StatusOK : Nat := 200

/-- Source `AnalyzeURLHandler`; `body` is the request body and `ctx` the context of
the request as the goroutines of the analyzer observe it. -/
def AnalyzeURLHandler (lib : url.Library) (env : Env) (codec : Codec)
    (ctx : Extractor → Context) (body : String) : Served :=
  match codec.Decode body with
  | .error _ =>
    .responded StatusBadRequest
      { Success := false, Data := none, Error := "Invalid request payload" }
      [.RequestInvalidCount]
  | .ok req =>
    match codec.Struct req with
    | some err =>
      .responded StatusBadRequest
        { Success := false, Data := none, Error := "Validation failed: " ++ err }
        [.RequestInvalidCount]
    | none =>
      match AnalyzeURL lib env ctx req.URL with
      | .blocked => .hung [.RequestReceivedSuccessCount]
      | .returned _ (some err) =>
        .responded StatusInternalServerError
          { Success := false, Data := none, Error := "Failed to analyze URL: " ++ err }
          [.RequestReceivedSuccessCount, .RequestAnalyzerFailureCount]
      | .returned pageInfo none =>
        .responded StatusOK
          { Success := true, Data := some pageInfo, Error := "" }
          [.RequestReceivedSuccessCount, .RequestAnalyzerSuccessCount]

end handler

/-! ## Further example documents and collaborators -/

namespace examples

open html analyzer

/-- The context of a request cancelled before any extractor starts. -/
def cancelled : Extractor → Context := fun _ _ => true

/-- Collaborators whose HTTP client fails with "mocked network error". -/
def failingEnv : Env where
  NewRequestWithContext := fun method pageURL => .ok ⟨method, pageURL⟩
  Do := fun _ => .error "mocked network error"
  Parse := fun _ => .ok page

/-- A form whose anchor spells its keyword across nested elements:
`<form><a>Log<b>in</b></a></form>`. -/
def splitKeywordForm : Node :=
  document [element "html" [element "body" [
    element "form" [element "a" [text "Log", element "b" [text "in"]]]]]]

/-- An anchor with two `href` attributes, `#` first and `/internal` second, and
other attributes around them. -/
def twoHrefs : Node :=
  document [.mk .ElementNode "a"
    [⟨"", "class", "nav"⟩, ⟨"", "href", "#"⟩, ⟨"", "href", "/internal"⟩, ⟨"", "id", "x"⟩]
    [text "Top"]]

/-- The same anchor with the single attribute `href="#"`. -/
def oneHref : Node :=
  document [.mk .ElementNode "a" [⟨"", "href", "#"⟩] [text "Top"]]

/-- A decoder and validator for the handler examples: the body `{"url":"U"}` is
tabulated for `U` the address `http://example.com` and for `invalid-url`, any other
body fails to decode; the validator accepts `http://example.com` only. -/
def codec : handler.Codec where
  Decode := fun body =>
    if body = "\x7b\"url\":\"http://example.com\"\x7d" then .ok ⟨"http://example.com"⟩
    else if body = "\x7b\"url\":\"invalid-url\"\x7d" then .ok ⟨"invalid-url"⟩
    else .error "unexpected end of JSON input"
  Struct := fun req =>
    if req.URL = "http://example.com" then none
    else some "Field validation for URL failed on the url tag"

end examples

/-! ## Hosts and ports -/

namespace url

/-- Go `validOptionalPort` of `net/url`, which `url.Parse` applies to what follows
the host name in an authority: the port part of a `Host` is empty or a colon
followed by decimal digits. -/
def validOptionalPort (port : String) : Bool :=
  match port.data with
  | [] => true
  | c :: rest => c == ':' && rest.all (fun b => decide (0x30 ≤ b.toNat ∧ b.toNat ≤ 0x39))

end url

namespace analyzer

/-- The lower case of an ASCII capital letter; any other character unchanged. -/
def lowerASCII (c : Char) : Char :=
  if 0x41 ≤ c.toNat ∧ c.toNat ≤ 0x5A then Char.ofNat (c.toNat + 0x20) else c

/-- Two strings that differ at most in the case of ASCII letters, the letters of
host names. -/
def SameUpToCase (s t : String) : Prop :=
  s.data.map lowerASCII = t.data.map lowerASCII

end analyzer

namespace examples

open html analyzer

/-- The URL library of the examples with four more references tabulated: two with
an explicit port, one that differs from the base in its scheme and one that differs
in letter case (Go lower-cases the scheme and keeps the host as written). -/
def libraryWithPorts : url.Library where
  Parse := fun rawURL =>
    if rawURL = "http://example.com:8080/x" then
      .ok { Scheme := "http", Opaque := "", User := none, Host := "example.com:8080",
            Path := "/x", RawQuery := "", Fragment := "" }
    else if rawURL = "http://example.com:80/" then
      .ok { Scheme := "http", Opaque := "", User := none, Host := "example.com:80",
            Path := "/", RawQuery := "", Fragment := "" }
    else if rawURL = "https://example.com" then
      .ok { Scheme := "https", Opaque := "", User := none, Host := "example.com",
            Path := "", RawQuery := "", Fragment := "" }
    else if rawURL = "HTTP://EXAMPLE.COM" then
      .ok { Scheme := "http", Opaque := "", User := none, Host := "EXAMPLE.COM",
            Path := "", RawQuery := "", Fragment := "" }
    else library.Parse rawURL
  ResolveReference := library.ResolveReference
  FoldClass := library.FoldClass

/-- A page with one anchor for each of the four references of `libraryWithPorts`. -/
def portPage : Node :=
  document [element "html" [element "body" [
    anchor "http://example.com:8080/x" "other port",
    anchor "http://example.com:80/" "explicit default port",
    anchor "https://example.com" "other scheme",
    anchor "HTTP://EXAMPLE.COM" "capitals"]]]

end examples

/-! ## Lemmas on the string functions -/

namespace strings

theorem hasPrefixList_iff : ∀ (s p : List Char), hasPrefixList s p = true ↔ p <+: s
  | _, [] => by simp [hasPrefixList]
  | [], _ :: _ => by simp [hasPrefixList]
  | c :: s, d :: p => by
    simp only [hasPrefixList, Bool.and_eq_true, beq_iff_eq, hasPrefixList_iff s p,
      List.cons_prefix_cons]
    constructor
    · rintro ⟨rfl, h⟩; exact ⟨rfl, h⟩
    · rintro ⟨rfl, h⟩; exact ⟨rfl, h⟩

theorem containsList_iff : ∀ (s p : List Char), containsList s p = true ↔ p <:+: s
  | [], p => by
    simp [containsList, hasPrefixList_iff]
  | c :: s, p => by
    simp [containsList, hasPrefixList_iff, containsList_iff s p, List.infix_cons_iff]

/-! ### Case folding over the tables of package `unicode` -/

theorem toNat_ofNat_capital (n : Nat) (h1 : 0x41 ≤ n) (h2 : n ≤ 0x5A) :
    (Char.ofNat (n + 0x20)).toNat = n + 0x20 := by
  interval_cases n <;> rfl

theorem foldRune_toNat_lt (r : Char)
    (h : r.toNat < 0x80 ∨ r.toNat = 0x17F ∨ r.toNat = 0x212A) :
    (unicode.foldRune r).toNat < 0x80 := by
  unfold unicode.foldRune
  by_cases hu : 0x41 ≤ r.toNat ∧ r.toNat ≤ 0x5A
  · rw [if_pos hu, toNat_ofNat_capital r.toNat hu.1 hu.2]
    omega
  · rw [if_neg hu]
    by_cases h1 : r.toNat = 0x17F
    · rw [if_pos h1]; decide
    · rw [if_neg h1]
      by_cases h2 : r.toNat = 0x212A
      · rw [if_pos h2]; decide
      · rw [if_neg h2]
        omega

theorem foldRune_self_of_not (r : Char)
    (h : ¬ (r.toNat < 0x80 ∨ r.toNat = 0x17F ∨ r.toNat = 0x212A)) :
    unicode.foldRune r = r := by
  unfold unicode.foldRune
  rw [if_neg (by omega), if_neg (by omega), if_neg (by omega)]

theorem foldRuneBy_of_ascii (table : Char → Char) (r : Char) (h : r.toNat < 0x80) :
    unicode.foldRuneBy table r = unicode.foldRune r := by
  unfold unicode.foldRuneBy
  rw [if_pos (Or.inl h)]

theorem foldRuneBy_eq_of_foldRune_eq (table : Char → Char) (c d : Char)
    (h : unicode.foldRune c = unicode.foldRune d) :
    unicode.foldRuneBy table c = unicode.foldRuneBy table d := by
  unfold unicode.foldRuneBy
  by_cases hc : c.toNat < 0x80 ∨ c.toNat = 0x17F ∨ c.toNat = 0x212A
  · by_cases hd : d.toNat < 0x80 ∨ d.toNat = 0x17F ∨ d.toNat = 0x212A
    · rw [if_pos hc, if_pos hd, h]
    · have h1 := foldRune_toNat_lt c hc
      rw [h, foldRune_self_of_not d hd] at h1
      exact absurd (Or.inl h1) hd
  · by_cases hd : d.toNat < 0x80 ∨ d.toNat = 0x17F ∨ d.toNat = 0x212A
    · have h1 := foldRune_toNat_lt d hd
      rw [← h, foldRune_self_of_not c hc] at h1
      exact absurd (Or.inl h1) hc
    · rw [if_neg hc, if_neg hd]
      rw [foldRune_self_of_not c hc, foldRune_self_of_not d hd] at h
      rw [h]

theorem equalFoldListBy_of_equalFoldList (table : Char → Char) : ∀ (s t : List Char),
    equalFoldList s t = true → equalFoldListBy table s t = true
  | [], [], _ => rfl
  | [], _ :: _, h => by simp [equalFoldList] at h
  | _ :: _, [], h => by simp [equalFoldList] at h
  | c :: s, d :: t, h => by
    simp only [equalFoldList, Bool.and_eq_true, beq_iff_eq] at h
    simp only [equalFoldListBy, Bool.and_eq_true, beq_iff_eq]
    exact ⟨foldRuneBy_eq_of_foldRune_eq table c d h.1,
      equalFoldListBy_of_equalFoldList table s t h.2⟩

theorem equalFoldListBy_of_ascii (table : Char → Char) : ∀ (s t : List Char),
    (∀ c ∈ s, c.toNat < 0x80) → (∀ c ∈ t, c.toNat < 0x80) →
    equalFoldListBy table s t = equalFoldList s t
  | [], [], _, _ => rfl
  | [], _ :: _, _, _ => rfl
  | _ :: _, [], _, _ => rfl
  | c :: s, d :: t, hs, ht => by
    simp only [equalFoldListBy, equalFoldList]
    rw [foldRuneBy_of_ascii table c (hs c (List.mem_cons_self _ _)),
      foldRuneBy_of_ascii table d (ht d (List.mem_cons_self _ _)),
      equalFoldListBy_of_ascii table s t (fun x hx => hs x (List.mem_cons_of_mem _ hx))
        (fun x hx => ht x (List.mem_cons_of_mem _ hx))]

/-- On two ASCII strings the folding does not consult the case tables. -/
theorem EqualFoldBy_of_ascii (table : Char → Char) (s t : String)
    (hs : ∀ c ∈ s.data, c.toNat < 0x80) (ht : ∀ c ∈ t.data, c.toNat < 0x80) :
    EqualFoldBy table s t = EqualFold s t :=
  equalFoldListBy_of_ascii table s.data t.data hs ht

theorem equalFoldListBy_append (table : Char → Char) : ∀ (h h' p p' : List Char),
    equalFoldListBy table h h' = true →
    equalFoldListBy table (h ++ p) (h' ++ p') = equalFoldListBy table p p'
  | [], [], _, _, _ => rfl
  | [], _ :: _, _, _, hh => by simp [equalFoldListBy] at hh
  | _ :: _, [], _, _, hh => by simp [equalFoldListBy] at hh
  | c :: h, c' :: h', p, p', hh => by
    simp only [equalFoldListBy, Bool.and_eq_true] at hh
    simp only [List.cons_append, equalFoldListBy, hh.1, Bool.true_and]
    exact equalFoldListBy_append table h h' p p' hh.2

theorem eq_of_equalFoldListBy_ascii (table : Char → Char) : ∀ (p p' : List Char),
    (∀ c ∈ p, c.toNat < 0x41) → (∀ c ∈ p', c.toNat < 0x41) →
    equalFoldListBy table p p' = true → p = p'
  | [], [], _, _, _ => rfl
  | [], _ :: _, _, _, hh => by simp [equalFoldListBy] at hh
  | _ :: _, [], _, _, hh => by simp [equalFoldListBy] at hh
  | c :: p, c' :: p', hp, hp', hh => by
    simp only [equalFoldListBy, Bool.and_eq_true, beq_iff_eq] at hh
    have hc := hp c (List.mem_cons_self _ _)
    have hc' := hp' c' (List.mem_cons_self _ _)
    have e : unicode.foldRuneBy table c = c := by
      rw [foldRuneBy_of_ascii table c (by omega)]
      unfold unicode.foldRune
      rw [if_neg (by omega), if_neg (by omega), if_neg (by omega)]
    have e' : unicode.foldRuneBy table c' = c' := by
      rw [foldRuneBy_of_ascii table c' (by omega)]
      unfold unicode.foldRune
      rw [if_neg (by omega), if_neg (by omega), if_neg (by omega)]
    rw [e, e'] at hh
    rw [hh.1, eq_of_equalFoldListBy_ascii table p p'
      (fun x hx => hp x (List.mem_cons_of_mem _ hx))
      (fun x hx => hp' x (List.mem_cons_of_mem _ hx)) hh.2]

end strings

namespace analyzer

open html

/-! ## Heading counts -/

theorem addCounts_nil (m : HeadingMap) : addCounts [] m = m := by
  simp [addCounts, countTag]

theorem addCounts_append (l₁ l₂ : List Node) (m : HeadingMap) :
    addCounts l₂ (addCounts l₁ m) = addCounts (l₁ ++ l₂) m := by
  simp [addCounts, countTag, List.countP_append, Nat.add_assoc]

theorem headings_step (t : NodeType) (d : String) (a : List Attribute) (cs : List Node)
    (m : HeadingMap) :
    (if t = NodeType.ElementNode then (if m.exists d then m.incr d else m) else m)
      = addCounts [Node.mk t d a cs] m := by
  unfold addCounts countTag
  by_cases ht : t = NodeType.ElementNode
  · rw [if_pos ht]
    by_cases hex : HeadingMap.exists m d = true
    · rw [if_pos hex]
      unfold HeadingMap.incr
      apply List.map_congr_left
      intro e _
      by_cases hk : e.1 = d
      · simp [hk, Node.isElement, Node.Typ, Node.Data, ht]
      · have hk2 : ¬ d = e.1 := fun h => hk h.symm
        simp [hk, hk2, Node.isElement, Node.Typ, Node.Data, ht]
    · rw [if_neg hex]
      have hall : ∀ e ∈ m, ¬ d = e.1 := by
        intro e he hk
        apply hex
        unfold HeadingMap.exists
        rw [List.any_eq_true]
        exact ⟨e, he, by simp [hk]⟩
      conv_lhs => rw [← List.map_id m]
      apply List.map_congr_left
      intro e he
      simp [Node.isElement, Node.Typ, Node.Data, ht, hall e he]
  · rw [if_neg ht]
    conv_lhs => rw [← List.map_id m]
    apply List.map_congr_left
    intro e _
    simp [Node.isElement, Node.Typ, ht]

mutual
theorem headings_traverse_eq : ∀ (n : Node) (m : HeadingMap),
    getHeadingsCount.traverse n m = addCounts n.subtree m
  | .mk t d a cs, m => by
    rw [getHeadingsCount.traverse, headings_step t d a cs, headings_traverseChildren_eq cs,
      addCounts_append]
    simp [Node.subtree]
theorem headings_traverseChildren_eq : ∀ (cs : List Node) (m : HeadingMap),
    getHeadingsCount.traverseChildren cs m = addCounts (Node.subtreeList cs) m
  | [], m => by simp [getHeadingsCount.traverseChildren, Node.subtreeList, addCounts_nil]
  | c :: cs, m => by
    rw [getHeadingsCount.traverseChildren, headings_traverse_eq c,
      headings_traverseChildren_eq cs, addCounts_append]
    simp [Node.subtreeList]
end

/-- C5: for every document tree, the map sent by `getHeadingsCount` has exactly the
six keys h1..h6, and the value at each key is the number of element nodes of the
whole tree whose tag is exactly that string; a node that is not an element, or whose
tag is spelled `H1`, is counted nowhere, and a tree with three `h1` elements and no
other heading yields h1:3 and 0 for the other five. -/
theorem getHeadingsCount_counts :
    (∀ doc : Node, (getHeadingsCount Context.Background doc).sent =
      [[("h1", countTag "h1" doc.subtree), ("h2", countTag "h2" doc.subtree),
        ("h3", countTag "h3" doc.subtree), ("h4", countTag "h4" doc.subtree),
        ("h5", countTag "h5" doc.subtree), ("h6", countTag "h6" doc.subtree)]]) ∧
    (∀ (tag : String) (l : List Node),
      countTag tag l =
        (l.filter (fun n => decide (n.Typ = NodeType.ElementNode ∧ n.Data = tag))).length) ∧
    (getHeadingsCount Context.Background
        (Node.mk .DocumentNode "" [] [Node.mk .ElementNode "H1" [] [],
          Node.mk .TextNode "h1" [] [], Node.mk .CommentNode "h2" [] []])).sent =
      [[("h1", 0), ("h2", 0), ("h3", 0), ("h4", 0), ("h5", 0), ("h6", 0)]] ∧
    (getHeadingsCount Context.Background examples.threeH1).sent =
      [[("h1", 3), ("h2", 0), ("h3", 0), ("h4", 0), ("h5", 0), ("h6", 0)]] := by
  refine ⟨?_, ?_, by decide, by decide⟩
  · intro doc
    simp [getHeadingsCount, isCancelled, Context.Background, headings_traverse_eq, addCounts]
  · intro tag l
    unfold countTag
    rw [List.countP_eq_length_filter]
    rfl

/-! ## HTML version -/

theorem version_scan_eq (version : String) : ∀ l : List Node,
    getHTMLVersion.scan version l =
      match l.find? isDoctype with
      | none => version
      | some d => getHTMLVersion.switch version (strings.ToLower d.Data)
  | [] => by simp [getHTMLVersion.scan]
  | c :: rest => by
    by_cases hc : c.Typ = NodeType.DoctypeNode
    · simp [getHTMLVersion.scan, hc, isDoctype]
    · simp [getHTMLVersion.scan, hc, isDoctype, version_scan_eq version rest]

theorem getHTMLVersion_sent (doc : Node) :
    (getHTMLVersion Context.Background doc).sent =
      [match doc.children.find? isDoctype with
       | none => "Unknown"
       | some d => getHTMLVersion.switch "Unknown" (strings.ToLower d.Data)] := by
  simp [getHTMLVersion, isCancelled, Context.Background, version_scan_eq]

theorem toLower_eq_space (c : Char) (h : unicode.ToLower c = Char.ofNat 0x20) :
    c = Char.ofNat 0x20 := by
  unfold unicode.ToLower at h
  by_cases hu : 0x41 ≤ c.toNat ∧ c.toNat ≤ 0x5A
  · rw [if_pos hu] at h
    have ht := strings.toNat_ofNat_capital c.toNat hu.1 hu.2
    rw [h] at ht
    have h32 : (Char.ofNat 0x20).toNat = 0x20 := rfl
    omega
  · rw [if_neg hu] at h
    by_cases h1 : c.toNat = 0x130
    · rw [if_pos h1] at h
      exact absurd h (by decide)
    · rw [if_neg h1] at h
      by_cases h2 : c.toNat = 0x212A
      · rw [if_pos h2] at h
        exact absurd h (by decide)
      · rw [if_neg h2] at h
        exact h

theorem space_mem_of_contains (d needle : String)
    (hsp : Char.ofNat 0x20 ∈ needle.data)
    (h : strings.Contains (strings.ToLower d) needle = true) :
    Char.ofNat 0x20 ∈ d.data := by
  unfold strings.Contains strings.ToLower at h
  rw [strings.containsList_iff] at h
  have hm : Char.ofNat 0x20 ∈ d.data.map unicode.ToLower := h.subset hsp
  obtain ⟨c, hc, hcl⟩ := List.mem_map.mp hm
  rw [toLower_eq_space c hcl] at hc
  exact hc

/-- C6 (defect of the code): `html.Parse` stores only the name of a doctype, which has
no white space, in `Data`, and the identifiers in attributes. For the tree of an
HTML 4.01 page, whose public identifier contains "HTML 4.01", `getHTMLVersion`
therefore reports HTML 5, not HTML 4; and for every tree whose first doctype has a
`Data` without a space the report is HTML 5 or Unknown, never HTML 2, 3 or 4. -/
theorem getHTMLVersion_parsed_html401 :
    (getHTMLVersion Context.Background examples.html401Page).sent = ["HTML 5"] ∧
    (∀ doc d : Node, doc.children.find? isDoctype = some d →
      Char.ofNat 0x20 ∉ d.Data.data →
      (getHTMLVersion Context.Background doc).sent = ["HTML 5"] ∨
      (getHTMLVersion Context.Background doc).sent = ["Unknown"]) := by
  refine ⟨by decide, ?_⟩
  intro doc d hfirst hsp
  have e2 : strings.Contains (strings.ToLower d.Data) "html 2.0" = false := by
    rw [Bool.eq_false_iff]
    exact fun h => hsp (space_mem_of_contains d.Data "html 2.0" (by decide) h)
  have e3 : strings.Contains (strings.ToLower d.Data) "html 3.2" = false := by
    rw [Bool.eq_false_iff]
    exact fun h => hsp (space_mem_of_contains d.Data "html 3.2" (by decide) h)
  have e4 : strings.Contains (strings.ToLower d.Data) "html 4.01" = false := by
    rw [Bool.eq_false_iff]
    exact fun h => hsp (space_mem_of_contains d.Data "html 4.01" (by decide) h)
  rw [getHTMLVersion_sent, hfirst]
  simp only [getHTMLVersion.switch, e2, e3, e4, Bool.false_eq_true, if_false]
  by_cases h5 : strings.Contains (strings.ToLower d.Data) "html" = true
  · rw [if_pos h5]; exact Or.inl rfl
  · rw [if_neg h5]; exact Or.inr rfl

/-- Witness of C6: the doctype of the HTML 4.01 page has the `Data` "html", without a
space, so the page is reported as HTML 5 or Unknown. -/
theorem getHTMLVersion_parsed_html401_witness :
    (getHTMLVersion Context.Background examples.html401Page).sent = ["HTML 5"] ∨
    (getHTMLVersion Context.Background examples.html401Page).sent = ["Unknown"] :=
  getHTMLVersion_parsed_html401.2 examples.html401Page
    (Node.mk .DoctypeNode "html"
      [⟨"", "public", "-//W3C//DTD HTML 4.01//EN"⟩,
       ⟨"", "system", "http://www.w3.org/TR/html4/strict.dtd"⟩] [])
    rfl (by decide)

/-- C7: when `getHTMLVersion` selects a doctype with text `d` (the first Doctype
child of the root), the version it reports is, with `l` the lower case of `d`:
HTML 2 if `l` contains "html 2.0", otherwise HTML 3 if `l` contains "html 3.2",
otherwise HTML 4 if `l` contains "html 4.01", otherwise HTML 5 if `l` contains
"html", otherwise Unknown; and for every tree the reported version is one of these
five values. -/
theorem getHTMLVersion_priority :
    (∀ doc d : Node, doc.children.find? isDoctype = some d →
      (getHTMLVersion Context.Background doc).sent =
        [if strings.Contains (strings.ToLower d.Data) "html 2.0" then "HTML 2"
         else if strings.Contains (strings.ToLower d.Data) "html 3.2" then "HTML 3"
         else if strings.Contains (strings.ToLower d.Data) "html 4.01" then "HTML 4"
         else if strings.Contains (strings.ToLower d.Data) "html" then "HTML 5"
         else "Unknown"]) ∧
    (∀ doc : Node, ∃ v, (getHTMLVersion Context.Background doc).sent = [v] ∧
      (v = "HTML 2" ∨ v = "HTML 3" ∨ v = "HTML 4" ∨ v = "HTML 5" ∨ v = "Unknown")) := by
  constructor
  · intro doc d hfirst
    rw [getHTMLVersion_sent, hfirst]
    rfl
  · intro doc
    refine ⟨_, getHTMLVersion_sent doc, ?_⟩
    cases doc.children.find? isDoctype with
    | none => simp
    | some d =>
      simp only [getHTMLVersion.switch]
      split_ifs <;> simp

/-- Witness of C7: the doctype `html` of the end-to-end page is selected and
classified as HTML 5. -/
theorem getHTMLVersion_priority_witness :
    examples.page.children.find? isDoctype = some (examples.doctype "html") ∧
    (getHTMLVersion Context.Background examples.page).sent = ["HTML 5"] :=
  ⟨rfl, getHTMLVersion_priority.1 examples.page (examples.doctype "html") rfl⟩

/-- C8: `getHTMLVersion` depends only on the first Doctype node among the immediate
children of the root: without a Doctype child the version is Unknown, also when a
Doctype node is nested deeper; with one, the result is that of the document made of
this first Doctype alone, so two documents with the same first Doctype child get the
same version, and the doctype children "foo", "html" yield Unknown. -/
theorem getHTMLVersion_first_doctype :
    (∀ doc : Node, (∀ c ∈ doc.children, c.Typ ≠ NodeType.DoctypeNode) →
      (getHTMLVersion Context.Background doc).sent = ["Unknown"]) ∧
    (∀ doc d : Node, doc.children.find? isDoctype = some d →
      (getHTMLVersion Context.Background doc).sent =
        (getHTMLVersion Context.Background (Node.mk .DocumentNode "" [] [d])).sent) ∧
    (∀ doc doc' : Node, doc.children.find? isDoctype = doc'.children.find? isDoctype →
      (getHTMLVersion Context.Background doc).sent =
        (getHTMLVersion Context.Background doc').sent) ∧
    (getHTMLVersion Context.Background examples.nestedDoctype).sent = ["Unknown"] ∧
    (getHTMLVersion Context.Background examples.twoDoctypes).sent = ["Unknown"] := by
  refine ⟨?_, ?_, ?_, by decide, by decide⟩
  · intro doc hnone
    have h : doc.children.find? isDoctype = none := by
      rw [List.find?_eq_none]
      intro c hc
      simpa [isDoctype] using hnone c hc
    rw [getHTMLVersion_sent, h]
  · intro doc d hfirst
    have hd : isDoctype d = true := List.find?_some hfirst
    rw [getHTMLVersion_sent, getHTMLVersion_sent, hfirst]
    simp [Node.children, hd]
  · intro doc doc' h
    rw [getHTMLVersion_sent, getHTMLVersion_sent, h]

/-- Witness of C8: the three hypotheses at concrete documents: one without any
doctype child, the end-to-end page and its first doctype, and the page against the
same page followed by a second doctype. -/
theorem getHTMLVersion_first_doctype_witness :
    (getHTMLVersion Context.Background examples.nestedDoctype).sent = ["Unknown"] ∧
    (getHTMLVersion Context.Background examples.page).sent =
      (getHTMLVersion Context.Background
        (Node.mk .DocumentNode "" [] [examples.doctype "html"])).sent ∧
    (getHTMLVersion Context.Background examples.page).sent =
      (getHTMLVersion Context.Background
        (examples.document [examples.doctype "html", examples.doctype "html 4.01"])).sent :=
  ⟨getHTMLVersion_first_doctype.1 examples.nestedDoctype (by decide),
   getHTMLVersion_first_doctype.2.1 examples.page (examples.doctype "html") rfl,
   getHTMLVersion_first_doctype.2.2.1 examples.page
     (examples.document [examples.doctype "html", examples.doctype "html 4.01"]) rfl⟩

/-! ## Page title -/

theorem findHead_eq : ∀ l : List Node,
    getPageTitle.findHead l = l.find? (fun hc => hc.isElement "head")
  | [] => rfl
  | hc :: rest => by
    by_cases h : hc.Typ = NodeType.ElementNode ∧ hc.Data = "head"
    · simp [getPageTitle.findHead, h, Node.isElement]
    · simp [getPageTitle.findHead, h, Node.isElement, findHead_eq rest]

theorem findHtml_eq : ∀ l : List Node,
    getPageTitle.findHtml l =
      (l.find? (fun c => c.isElement "html")).bind
        (fun h => h.children.find? (fun hc => hc.isElement "head"))
  | [] => rfl
  | c :: rest => by
    by_cases h : c.Typ = NodeType.ElementNode ∧ c.Data = "html"
    · simp [getPageTitle.findHtml, h, Node.isElement, findHead_eq]
    · simp [getPageTitle.findHtml, h, Node.isElement, findHtml_eq rest]

theorem findTitle_eq (title : String) : ∀ l : List Node,
    getPageTitle.findTitle title l =
      match l.find? (fun c => c.isElement "title" && !c.children.isEmpty) with
      | none => title
      | some t =>
        match t.children with
        | [] => title
        | c :: _ => c.Data
  | [] => rfl
  | c :: rest => by
    by_cases h : c.Typ = NodeType.ElementNode ∧ c.Data = "title"
    · cases hcs : c.children with
      | nil => simp [getPageTitle.findTitle, h, hcs, Node.isElement, findTitle_eq title rest]
      | cons f fs => simp [getPageTitle.findTitle, h, hcs, Node.isElement]
    · simp [getPageTitle.findTitle, h, Node.isElement, findTitle_eq title rest]

theorem getPageTitle_sent (doc : Node) :
    (getPageTitle Context.Background doc).sent =
      [match headOf doc with
       | some head => titleOf head
       | none => ""] := by
  simp only [getPageTitle, isCancelled, Context.Background, findHtml_eq, headOf]
  cases (doc.children.find? (fun c => c.isElement "html")).bind
      (fun h => h.children.find? (fun hc => hc.isElement "head")) with
  | none => simp
  | some head => simp [findTitle_eq, titleOf]

/-- C9 (as stated, refuted): in `examples.emptyThenFull` the first `title` child of
the head has no child, so the claim predicts the empty string, but `getPageTitle`
skips it and sends the text of the second `title`; and for a head whose only
`title` has an element `b` as first child the claim predicts the empty string, but
`getPageTitle` sends the tag `b`. -/
theorem getPageTitle_first_title_counterexample :
    headOf examples.emptyThenFull = some examples.emptyThenFullHead ∧
    claimedTitle examples.emptyThenFullHead = "" ∧
    (getPageTitle Context.Background examples.emptyThenFull).sent = ["Second"] ∧
    claimedTitle (examples.element "head" [examples.element "title"
      [examples.element "b" [examples.text "Bold"]]]) = "" ∧
    (getPageTitle Context.Background (examples.document [examples.element "html"
      [examples.element "head" [examples.element "title"
        [examples.element "b" [examples.text "Bold"]]]]])).sent = ["b"] :=
  ⟨rfl, by decide, by decide, by decide, by decide⟩

/-- C9 (amended): with head the first `head` element child of the first `html`
element child of the document, `getPageTitle` sends the `Data` of the first child
(its text when that child is a Text node) of the first `title` element child of
head that has at least one child, and the empty string when no `title` element
child of head has a child or when there is no such head. -/
theorem getPageTitle_first_title_with_child (doc : Node) :
    (getPageTitle Context.Background doc).sent =
      [match (doc.children.find? (fun c => c.isElement "html")).bind
          (fun h => h.children.find? (fun hc => hc.isElement "head")) with
       | none => ""
       | some head =>
         match head.children.find? (fun c => c.isElement "title" && !c.children.isEmpty) with
         | none => ""
         | some t =>
           match t.children with
           | [] => ""
           | c :: _ => c.Data] := by
  rw [getPageTitle_sent, headOf]
  cases (doc.children.find? (fun c => c.isElement "html")).bind
      (fun h => h.children.find? (fun hc => hc.isElement "head")) with
  | none => rfl
  | some head => rfl

/-- C10: when the first `html` element child of the document has no `head` element
child, or that head has no `title` element child, `getPageTitle` sends the empty
string, whatever `title` elements lie elsewhere. -/
theorem getPageTitle_no_title (doc html : Node)
    (hhtml : doc.children.find? (fun c => c.isElement "html") = some html)
    (hhead : html.children.find? (fun hc => hc.isElement "head") = none ∨
      ∃ head, html.children.find? (fun hc => hc.isElement "head") = some head ∧
        ∀ c ∈ head.children, c.isElement "title" = false) :
    (getPageTitle Context.Background doc).sent = [""] := by
  rw [getPageTitle_sent, headOf, hhtml]
  rcases hhead with hnone | ⟨head, hsome, hno⟩
  · simp [hnone]
  · have h : head.children.find? (fun c => c.isElement "title" && !c.children.isEmpty) = none := by
      rw [List.find?_eq_none]
      intro c hc
      simp [hno c hc]
    simp [hsome, titleOf, h]

/-- Witness of C10: `examples.titlesElsewhere` has no head under its first `html`
element and `title` elements under the document, in the body and under a later
`html`; `examples.titlesBesideHead` has a first head without `title` child and
`title` elements nested deeper in it and under a later head. Both get the empty
title. -/
theorem getPageTitle_no_title_witness :
    (getPageTitle Context.Background examples.titlesElsewhere).sent = [""] ∧
    (getPageTitle Context.Background examples.titlesBesideHead).sent = [""] :=
  ⟨getPageTitle_no_title examples.titlesElsewhere
      (examples.element "html"
        [examples.element "body" [examples.element "title" [examples.text "in the body"]]])
      rfl (Or.inl rfl),
   getPageTitle_no_title examples.titlesBesideHead
      (examples.element "html" [
        examples.element "head"
          [examples.element "div" [examples.element "title" [examples.text "nested"]]],
        examples.element "head" [examples.element "title" [examples.text "later head"]]])
      rfl
      (Or.inr ⟨examples.element "head"
          [examples.element "div" [examples.element "title" [examples.text "nested"]]],
        rfl, by decide⟩)⟩

/-! ## Link statistics -/

theorem rangeAttr_eq (lib : url.Library) (baseURL : url.URL) :
    ∀ (attrs : List Attribute) (stats : LinkStats),
    getLinkStats.rangeAttr lib baseURL attrs stats =
      match attrs.find? (fun attr => attr.Key = "href") with
      | none => stats
      | some attr => stats.bump (linkPolicy lib baseURL attr.Val)
  | [], stats => rfl
  | attr :: rest, stats => by
    by_cases hk : attr.Key = "href"
    · simp only [getLinkStats.rangeAttr, hk, ne_eq, not_true_eq_false, if_false,
        List.find?_cons_of_pos, decide_True, linkPolicy]
      by_cases h1 : strings.TrimSpace attr.Val = "" ∨
          strings.HasPrefix (strings.TrimSpace attr.Val) "#" = true
      · simp only [h1, if_true, LinkStats.bump]
      · simp only [h1, if_false]
        cases hp : lib.Parse (strings.TrimSpace attr.Val) with
        | error e => simp only [LinkStats.bump]
        | ok ref =>
          simp only
          by_cases h2 : strings.ToLower (lib.ResolveReference baseURL ref).Scheme = "http"
          · by_cases h4 : strings.EqualFoldBy lib.FoldClass (lib.ResolveReference baseURL ref).Host
                baseURL.Host = true
            · simp [h2, h4, LinkStats.bump]
            · simp [h2, h4, LinkStats.bump]
          · by_cases h3 : strings.ToLower (lib.ResolveReference baseURL ref).Scheme = "https"
            · by_cases h4 : strings.EqualFoldBy lib.FoldClass (lib.ResolveReference baseURL ref).Host
                  baseURL.Host = true
              · simp [h3, h4, LinkStats.bump]
              · simp [h3, h4, LinkStats.bump]
            · simp [h2, h3, LinkStats.bump]
    · have hk' : (decide (attr.Key = "href")) = false := by simp [hk]
      simp only [getLinkStats.rangeAttr, ne_eq, hk, not_false_eq_true, if_true]
      rw [rangeAttr_eq lib baseURL rest stats, List.find?_cons_of_neg _ (by simp [hk])]

theorem addClasses_nil (lib : url.Library) (baseURL : url.URL) (stats : LinkStats) :
    addClasses lib baseURL [] stats = stats := by
  simp [addClasses, countClass]

theorem addClasses_append (lib : url.Library) (baseURL : url.URL) (l₁ l₂ : List Node)
    (stats : LinkStats) :
    addClasses lib baseURL l₂ (addClasses lib baseURL l₁ stats) =
      addClasses lib baseURL (l₁ ++ l₂) stats := by
  simp [addClasses, countClass, List.countP_append, Nat.add_assoc]

theorem links_step (lib : url.Library) (baseURL : url.URL) (t : NodeType) (d : String)
    (attrs : List Attribute) (cs : List Node) (stats : LinkStats) :
    (if t = NodeType.ElementNode ∧ d = "a" then getLinkStats.rangeAttr lib baseURL attrs stats
      else stats) = addClasses lib baseURL [Node.mk t d attrs cs] stats := by
  rw [rangeAttr_eq]
  unfold addClasses countClass anchorClass firstHref
  by_cases h : t = NodeType.ElementNode ∧ d = "a"
  · obtain ⟨rfl, rfl⟩ := h
    have he : (Node.mk NodeType.ElementNode "a" attrs cs).isElement "a" = true := by
      simp [Node.isElement, Node.Typ, Node.Data]
    simp only [and_self, if_true, List.countP_singleton, he, Node.Attr]
    cases attrs.find? (fun attr => attr.Key = "href") with
    | none => simp
    | some attr =>
      cases hc : linkPolicy lib baseURL attr.Val <;> simp [hc, LinkStats.bump]
  · have he : (Node.mk t d attrs cs).isElement "a" = false := by
      simpa [Node.isElement, Node.Typ, Node.Data] using h
    simp [h, he]

mutual
theorem links_traverse_eq (lib : url.Library) (baseURL : url.URL) :
    ∀ (n : Node) (stats : LinkStats),
    getLinkStats.traverse lib baseURL n stats = addClasses lib baseURL n.subtree stats
  | .mk t d attrs cs, stats => by
    rw [getLinkStats.traverse, links_step lib baseURL t d attrs cs,
      links_traverseChildren_eq lib baseURL cs, addClasses_append]
    simp [Node.subtree]
theorem links_traverseChildren_eq (lib : url.Library) (baseURL : url.URL) :
    ∀ (cs : List Node) (stats : LinkStats),
    getLinkStats.traverseChildren lib baseURL cs stats =
      addClasses lib baseURL (Node.subtreeList cs) stats
  | [], stats => by simp [getLinkStats.traverseChildren, Node.subtreeList, addClasses_nil]
  | c :: cs, stats => by
    rw [getLinkStats.traverseChildren, links_traverse_eq lib baseURL c,
      links_traverseChildren_eq lib baseURL cs, addClasses_append]
    simp [Node.subtreeList]
end

theorem getLinkStats_sent (lib : url.Library) (baseURL : url.URL) (doc : Node) :
    (getLinkStats lib Context.Background doc baseURL).sent =
      [{ Internal := countClass lib baseURL .internal doc.subtree,
         External := countClass lib baseURL .external doc.subtree,
         Inaccessible := countClass lib baseURL .inaccessible doc.subtree }] := by
  simp [getLinkStats, isCancelled, Context.Background, links_traverse_eq, addClasses]

theorem anchorClass_isSome (lib : url.Library) (baseURL : url.URL) (n : Node) :
    (anchorClass lib baseURL n).isSome = hasHref n := by
  unfold anchorClass hasHref firstHref
  by_cases he : n.isElement "a" = true
  · simp only [he, if_true, Option.isSome_map', Bool.true_and]
    rw [Bool.eq_iff_iff, List.find?_isSome, List.any_eq_true]
  · simp [he]

theorem countClass_sum (lib : url.Library) (baseURL : url.URL) : ∀ l : List Node,
    countClass lib baseURL .internal l + countClass lib baseURL .external l +
      countClass lib baseURL .inaccessible l = l.countP hasHref
  | [] => by simp [countClass]
  | n :: l => by
    have ih := countClass_sum lib baseURL l
    have hn := anchorClass_isSome lib baseURL n
    unfold countClass at ih ⊢
    simp only [List.countP_cons]
    rw [← ih, ← hn]
    cases hc : anchorClass lib baseURL n with
    | none => simp
    | some c => cases c <;> simp <;> omega

theorem countClass_eq_hrefs (lib : url.Library) (baseURL : url.URL) (c : LinkClass) :
    ∀ l : List Node,
    countClass lib baseURL c l =
      ((hrefs l).filter (fun h => decide (linkPolicy lib baseURL h = c))).length
  | [] => by simp [countClass, hrefs]
  | n :: l => by
    have ih := countClass_eq_hrefs lib baseURL c l
    unfold countClass hrefs at ih ⊢
    rw [List.countP_cons, ih]
    unfold anchorClass
    by_cases he : n.isElement "a" = true
    · cases hf : firstHref n with
      | none => simp [he, hf]
      | some h =>
        by_cases hc : linkPolicy lib baseURL h = c
        · simp [he, hf, hc]
        · simp [he, hf, hc]
    · simp [he]

theorem linkPolicy_of_resolves (lib : url.Library) (baseURL : url.URL)
    (h scheme host : String)
    (hne : strings.TrimSpace h ≠ "")
    (hp : strings.HasPrefix (strings.TrimSpace h) "#" = false)
    (hr : Resolves lib baseURL (strings.TrimSpace h) scheme host) :
    linkPolicy lib baseURL h =
      if strings.ToLower scheme ≠ "http" ∧ strings.ToLower scheme ≠ "https" then
        LinkClass.inaccessible
      else if strings.EqualFoldBy lib.FoldClass host baseURL.Host then LinkClass.internal
      else LinkClass.external := by
  obtain ⟨ref, hparse, hs, hh⟩ := hr
  unfold linkPolicy
  simp only [hne, hp, false_or, Bool.false_eq_true, if_false, hparse, hs, hh]

/-- A host written in capitals outside ASCII equals the base host ignoring case as
soon as the case tables fold `É` and `é` together, as those of Go do. -/
theorem equalFoldBy_accented_host (table : Char → Char)
    (h : table (Char.ofNat 0xC9) = table (Char.ofNat 0xE9)) :
    strings.EqualFoldBy table "\u00C9XAMPLE.com" "\u00E9xample.com" = true := by
  have h1 : unicode.foldRuneBy table (Char.ofNat 0xC9) = table (Char.ofNat 0xC9) := by
    unfold unicode.foldRuneBy
    rw [if_neg (by decide)]
  have h2 : unicode.foldRuneBy table (Char.ofNat 0xE9) = table (Char.ofNat 0xE9) := by
    unfold unicode.foldRuneBy
    rw [if_neg (by decide)]
  have ht : strings.EqualFoldBy table "XAMPLE.com" "xample.com" = true := by
    rw [strings.EqualFoldBy_of_ascii table _ _ (by decide) (by decide)]
    decide
  show strings.equalFoldListBy table (Char.ofNat 0xC9 :: "XAMPLE.com".data)
    (Char.ofNat 0xE9 :: "xample.com".data) = true
  unfold strings.equalFoldListBy
  rw [h1, h2, h, beq_self_eq_true, Bool.true_and]
  exact ht

theorem linkPolicy_of_resolves_ascii (lib : url.Library) (baseURL : url.URL)
    (h scheme host : String)
    (hne : strings.TrimSpace h ≠ "")
    (hp : strings.HasPrefix (strings.TrimSpace h) "#" = false)
    (hr : Resolves lib baseURL (strings.TrimSpace h) scheme host)
    (hhost : ∀ c ∈ host.data, c.toNat < 0x80)
    (hbase : ∀ c ∈ baseURL.Host.data, c.toNat < 0x80) :
    linkPolicy lib baseURL h =
      if strings.ToLower scheme ≠ "http" ∧ strings.ToLower scheme ≠ "https" then
        LinkClass.inaccessible
      else if strings.EqualFold host baseURL.Host then LinkClass.internal
      else LinkClass.external := by
  rw [linkPolicy_of_resolves lib baseURL h scheme host hne hp hr,
    strings.EqualFoldBy_of_ascii lib.FoldClass host baseURL.Host hhost hbase]

/-- C2: for every document tree and base URL the three counters sent by
`getLinkStats` add up to the number of `a` elements of the tree that carry at least
one attribute with key `href`; visiting one node increments exactly one of the
three counters when the node is such an anchor and leaves the statistics unchanged
when it is an `a` element without href or any other node. -/
theorem getLinkStats_total :
    (∀ (lib : url.Library) (baseURL : url.URL) (doc : Node),
      ∃ stats, (getLinkStats lib Context.Background doc baseURL).sent = [stats] ∧
        stats.Internal + stats.External + stats.Inaccessible =
          (doc.subtree.filter
            (fun n => n.isElement "a" && n.Attr.any (fun attr => attr.Key = "href"))).length) ∧
    (∀ (lib : url.Library) (baseURL : url.URL) (t : NodeType) (d : String)
        (attrs : List Attribute) (stats : LinkStats),
      if t = NodeType.ElementNode ∧ d = "a" ∧ ∃ attr ∈ attrs, attr.Key = "href" then
        getLinkStats.traverse lib baseURL (Node.mk t d attrs []) stats =
            { stats with Internal := stats.Internal + 1 } ∨
        getLinkStats.traverse lib baseURL (Node.mk t d attrs []) stats =
            { stats with External := stats.External + 1 } ∨
        getLinkStats.traverse lib baseURL (Node.mk t d attrs []) stats =
            { stats with Inaccessible := stats.Inaccessible + 1 }
      else getLinkStats.traverse lib baseURL (Node.mk t d attrs []) stats = stats) := by
  constructor
  · intro lib baseURL doc
    refine ⟨_, getLinkStats_sent lib baseURL doc, ?_⟩
    simp only
    rw [countClass_sum, List.countP_eq_length_filter]
    rfl
  · intro lib baseURL t d attrs stats
    have hstep : getLinkStats.traverse lib baseURL (Node.mk t d attrs []) stats =
        (if t = NodeType.ElementNode ∧ d = "a" then
          getLinkStats.rangeAttr lib baseURL attrs stats else stats) := by
      simp [getLinkStats.traverse, getLinkStats.traverseChildren]
    rw [hstep, rangeAttr_eq]
    by_cases he : t = NodeType.ElementNode ∧ d = "a"
    · rw [if_pos he]
      cases hf : attrs.find? (fun attr => attr.Key = "href") with
      | none =>
        have hno : ¬ (t = NodeType.ElementNode ∧ d = "a" ∧ ∃ attr ∈ attrs, attr.Key = "href") := by
          rintro ⟨_, _, a, ha, hk⟩
          rw [List.find?_eq_none] at hf
          exact hf a ha (by simpa using hk)
        rw [if_neg hno]
      | some a =>
        have hk := List.find?_some hf
        have hyes : t = NodeType.ElementNode ∧ d = "a" ∧ ∃ attr ∈ attrs, attr.Key = "href" :=
          ⟨he.1, he.2, a, List.mem_of_find?_eq_some hf, by simpa using hk⟩
        rw [if_pos hyes]
        cases hc : linkPolicy lib baseURL a.Val <;> simp [LinkStats.bump, hc]
    · have hno : ¬ (t = NodeType.ElementNode ∧ d = "a" ∧ ∃ attr ∈ attrs, attr.Key = "href") :=
        fun h => he ⟨h.1, h.2.1⟩
      rw [if_neg he, if_neg hno]

/-- C3: for every document tree and base URL, `getLinkStats` counts every `a`
element with a first href value `h` in the class of the ordered policy (`linkPolicy`:
inaccessible when the trimmed `h` is empty or starts with `#`, else inaccessible when
it does not parse, else inaccessible when the scheme of the resolved reference is
neither http nor https, else internal when its host equals the base host ignoring
case, under simple case folding of every code point over any case tables, else
external). Against the base `http://example.com`, given a library that
resolves the three references as Go does, `/internal` is internal,
`https://external.com` is external and `mailto:someone@example.com` inaccessible. -/
theorem getLinkStats_policy :
    (∀ (lib : url.Library) (baseURL : url.URL) (doc : Node),
      (getLinkStats lib Context.Background doc baseURL).sent =
        [{ Internal := ((hrefs doc.subtree).filter
              (fun h => decide (linkPolicy lib baseURL h = .internal))).length,
           External := ((hrefs doc.subtree).filter
              (fun h => decide (linkPolicy lib baseURL h = .external))).length,
           Inaccessible := ((hrefs doc.subtree).filter
              (fun h => decide (linkPolicy lib baseURL h = .inaccessible))).length }]) ∧
    (∀ lib : url.Library, Resolves lib examples.base "/internal" "http" "example.com" →
      (getLinkStats lib Context.Background
        (examples.document [examples.anchor "/internal" "Internal"]) examples.base).sent =
        [⟨1, 0, 0⟩]) ∧
    (∀ lib : url.Library,
      Resolves lib examples.base "https://external.com" "https" "external.com" →
      (getLinkStats lib Context.Background
        (examples.document [examples.anchor "https://external.com" "External"])
        examples.base).sent = [⟨0, 1, 0⟩]) ∧
    (∀ lib : url.Library,
      Resolves lib examples.base "mailto:someone@example.com" "mailto" "" →
      (getLinkStats lib Context.Background
        (examples.document [examples.anchor "mailto:someone@example.com" "Email"])
        examples.base).sent = [⟨0, 0, 1⟩]) := by
  have hgen : ∀ (lib : url.Library) (baseURL : url.URL) (doc : Node),
      (getLinkStats lib Context.Background doc baseURL).sent =
        [{ Internal := ((hrefs doc.subtree).filter
              (fun h => decide (linkPolicy lib baseURL h = .internal))).length,
           External := ((hrefs doc.subtree).filter
              (fun h => decide (linkPolicy lib baseURL h = .external))).length,
           Inaccessible := ((hrefs doc.subtree).filter
              (fun h => decide (linkPolicy lib baseURL h = .inaccessible))).length }] := by
    intro lib baseURL doc
    rw [getLinkStats_sent]
    simp only [countClass_eq_hrefs]
  refine ⟨hgen, ?_, ?_, ?_⟩
  · intro lib hr
    have hpol := linkPolicy_of_resolves_ascii lib examples.base "/internal" "http" "example.com"
      (by decide) (by decide) hr (by decide) (by decide)
    have hh : hrefs (examples.document [examples.anchor "/internal" "Internal"]).subtree =
        ["/internal"] := by decide
    rw [hgen, hh]
    have hpol' : linkPolicy lib examples.base "/internal" = .internal := by
      rw [hpol]; decide
    simp [hpol']
  · intro lib hr
    have hpol := linkPolicy_of_resolves_ascii lib examples.base "https://external.com" "https"
      "external.com" (by decide) (by decide) hr (by decide) (by decide)
    have hh : hrefs (examples.document
        [examples.anchor "https://external.com" "External"]).subtree =
        ["https://external.com"] := by decide
    rw [hgen, hh]
    have hpol' : linkPolicy lib examples.base "https://external.com" = .external := by
      rw [hpol]; decide
    simp [hpol']
  · intro lib hr
    have hpol := linkPolicy_of_resolves_ascii lib examples.base "mailto:someone@example.com"
      "mailto" "" (by decide) (by decide) hr (by decide) (by decide)
    have hh : hrefs (examples.document
        [examples.anchor "mailto:someone@example.com" "Email"]).subtree =
        ["mailto:someone@example.com"] := by decide
    rw [hgen, hh]
    have hpol' : linkPolicy lib examples.base "mailto:someone@example.com" = .inaccessible := by
      rw [hpol]; decide
    simp [hpol']

/-- Witness of C3: the example library resolves the three references as required,
and the three one-anchor documents are counted internal, external, inaccessible. -/
theorem getLinkStats_policy_witness :
    Resolves examples.library examples.base "/internal" "http" "example.com" ∧
    (getLinkStats examples.library Context.Background
      (examples.document [examples.anchor "/internal" "Internal"]) examples.base).sent =
      [⟨1, 0, 0⟩] ∧
    (getLinkStats examples.library Context.Background
      (examples.document [examples.anchor "https://external.com" "External"])
      examples.base).sent = [⟨0, 1, 0⟩] ∧
    (getLinkStats examples.library Context.Background
      (examples.document [examples.anchor "mailto:someone@example.com" "Email"])
      examples.base).sent = [⟨0, 0, 1⟩] :=
  ⟨⟨_, rfl, rfl, rfl⟩,
   getLinkStats_policy.2.1 examples.library ⟨_, rfl, rfl, rfl⟩,
   getLinkStats_policy.2.2.1 examples.library ⟨_, rfl, rfl, rfl⟩,
   getLinkStats_policy.2.2.2 examples.library ⟨_, rfl, rfl, rfl⟩⟩


/-! ## Login form -/

theorem password_rangeAttr_iff : ∀ attrs : List Attribute,
    containsPasswordInput.rangeAttr attrs = true ↔
      ∃ attr ∈ attrs, attr.Key = "type" ∧ strings.EqualFold attr.Val "password" = true
  | [] => by simp [containsPasswordInput.rangeAttr]
  | attr :: rest => by
    by_cases h : attr.Key = "type" ∧ strings.EqualFold attr.Val "password" = true
    · simp [containsPasswordInput.rangeAttr, h]
    · have ih := password_rangeAttr_iff rest
      simp only [containsPasswordInput.rangeAttr, h, if_false, ih, List.mem_cons,
        exists_eq_or_imp, false_or]

mutual
theorem password_walk_eq : ∀ (n : Node) (found : Bool),
    containsPasswordInput.walk n found =
      (found || n.subtree.any
        (fun i => i.isElement "input" && containsPasswordInput.rangeAttr i.Attr))
  | .mk t d attrs cs, found => by
    cases found with
    | true => simp [containsPasswordInput.walk]
    | false =>
      by_cases h : t = NodeType.ElementNode ∧ d = "input" ∧
          containsPasswordInput.rangeAttr attrs = true
      · obtain ⟨rfl, rfl, h3⟩ := h
        simp [containsPasswordInput.walk, h3, Node.subtree, Node.isElement, Node.Typ,
          Node.Data, Node.Attr]
      · have hb : ((Node.mk t d attrs cs).isElement "input" &&
            containsPasswordInput.rangeAttr (Node.mk t d attrs cs).Attr) = false := by
          simpa [Node.isElement, Node.Typ, Node.Data, Node.Attr, and_assoc] using h
        rw [containsPasswordInput.walk]
        simp only [Bool.false_eq_true, if_false, h, password_walkChildren_eq cs false,
          Node.subtree, List.any_cons, hb, Bool.false_or]
theorem password_walkChildren_eq : ∀ (cs : List Node) (found : Bool),
    containsPasswordInput.walkChildren cs found =
      (found || (Node.subtreeList cs).any
        (fun i => i.isElement "input" && containsPasswordInput.rangeAttr i.Attr))
  | [], found => by simp [containsPasswordInput.walkChildren, Node.subtreeList]
  | c :: cs, found => by
    cases found with
    | true => simp [containsPasswordInput.walkChildren]
    | false =>
      rw [containsPasswordInput.walkChildren]
      simp only [Bool.false_eq_true, if_false, password_walk_eq c false,
        password_walkChildren_eq cs, Node.subtreeList, List.any_append, Bool.false_or]
end

mutual
theorem anchor_walk_eq : ∀ (n : Node) (found : Bool),
    containsLoginAnchor.walk n found =
      (found || n.subtree.any
        (fun a => a.isElement "a" && containsLoginAnchor.isLoginText a))
  | .mk t d attrs cs, found => by
    cases found with
    | true => simp [containsLoginAnchor.walk]
    | false =>
      by_cases h : t = NodeType.ElementNode ∧ d = "a" ∧
          containsLoginAnchor.isLoginText (.mk t d attrs cs) = true
      · obtain ⟨rfl, rfl, h3⟩ := h
        simp [containsLoginAnchor.walk, h3, Node.subtree, Node.isElement, Node.Typ, Node.Data]
      · have hb : ((Node.mk t d attrs cs).isElement "a" &&
            containsLoginAnchor.isLoginText (Node.mk t d attrs cs)) = false := by
          simpa [Node.isElement, Node.Typ, Node.Data, and_assoc] using h
        rw [containsLoginAnchor.walk]
        simp only [Bool.false_eq_true, if_false, h, anchor_walkChildren_eq cs false,
          Node.subtree, List.any_cons, hb, Bool.false_or]
theorem anchor_walkChildren_eq : ∀ (cs : List Node) (found : Bool),
    containsLoginAnchor.walkChildren cs found =
      (found || (Node.subtreeList cs).any
        (fun a => a.isElement "a" && containsLoginAnchor.isLoginText a))
  | [], found => by simp [containsLoginAnchor.walkChildren, Node.subtreeList]
  | c :: cs, found => by
    cases found with
    | true => simp [containsLoginAnchor.walkChildren]
    | false =>
      rw [containsLoginAnchor.walkChildren]
      simp only [Bool.false_eq_true, if_false, anchor_walk_eq c false,
        anchor_walkChildren_eq cs, Node.subtreeList, List.any_append, Bool.false_or]
end

mutual
theorem login_traverse_eq : ∀ (n : Node) (found : Bool),
    detectLoginForm.traverse n found =
      (found || n.subtree.any
        (fun f => f.isElement "form" && (containsPasswordInput f || containsLoginAnchor f)))
  | .mk t d attrs cs, found => by
    cases found with
    | true => simp [detectLoginForm.traverse]
    | false =>
      by_cases h : t = NodeType.ElementNode ∧ d = "form" ∧
          (containsPasswordInput (.mk t d attrs cs) ||
            containsLoginAnchor (.mk t d attrs cs)) = true
      · obtain ⟨rfl, rfl, h3⟩ := h
        rw [detectLoginForm.traverse]
        simp [h3, Node.subtree, Node.isElement, Node.Typ, Node.Data]
      · have hb : ((Node.mk t d attrs cs).isElement "form" &&
            (containsPasswordInput (.mk t d attrs cs) ||
              containsLoginAnchor (.mk t d attrs cs))) = false := by
          simpa [Node.isElement, Node.Typ, Node.Data, and_assoc] using h
        rw [detectLoginForm.traverse]
        simp only [Bool.false_eq_true, if_false, h, login_traverseChildren_eq cs false,
          Node.subtree, List.any_cons, hb, Bool.false_or]
theorem login_traverseChildren_eq : ∀ (cs : List Node) (found : Bool),
    detectLoginForm.traverseChildren cs found =
      (found || (Node.subtreeList cs).any
        (fun f => f.isElement "form" && (containsPasswordInput f || containsLoginAnchor f)))
  | [], found => by simp [detectLoginForm.traverseChildren, Node.subtreeList]
  | c :: cs, found => by
    cases found with
    | true => simp [detectLoginForm.traverseChildren]
    | false =>
      rw [detectLoginForm.traverseChildren]
      simp only [Bool.false_eq_true, if_false, login_traverse_eq c false,
        login_traverseChildren_eq cs, Node.subtreeList, List.any_append, Bool.false_or]
end

theorem containsPasswordInput_iff (f : Node) :
    containsPasswordInput f = true ↔ ∃ i ∈ f.subtree, IsPasswordInput i := by
  unfold containsPasswordInput IsPasswordInput
  rw [password_walk_eq, Bool.false_or, List.any_eq_true]
  simp only [Bool.and_eq_true, password_rangeAttr_iff, Node.isElement, decide_eq_true_eq,
    and_assoc]

theorem containsLoginAnchor_iff (f : Node) :
    containsLoginAnchor f = true ↔ ∃ a ∈ f.subtree, IsLoginAnchor a := by
  unfold containsLoginAnchor IsLoginAnchor
  rw [anchor_walk_eq, Bool.false_or, List.any_eq_true]
  simp only [Bool.and_eq_true, containsLoginAnchor.isLoginText, Bool.or_eq_true,
    Node.isElement, decide_eq_true_eq, and_assoc, or_assoc]

/-- C4: for every document tree `detectLoginForm` sends one Boolean, and it is true
exactly when some `form` element of the tree, at any depth, has in its subtree an
`input` element with a `type` attribute equal to "password" ignoring case, or an
`a` element whose concatenated text, lower-cased, contains "login", "sign in" or
"continue with"; the short-circuits of the traversal do not change the answer. A
form with a password input gives true, a form with the anchor text "Login with
Google" gives true, a form with neither gives false. -/
theorem detectLoginForm_iff :
    (∀ doc : Node, ∃ found, (detectLoginForm Context.Background doc).sent = [found] ∧
      (found = true ↔
        ∃ f ∈ doc.subtree, f.Typ = NodeType.ElementNode ∧ f.Data = "form" ∧
          ((∃ i ∈ f.subtree, i.Typ = NodeType.ElementNode ∧ i.Data = "input" ∧
              ∃ attr ∈ i.Attr, attr.Key = "type" ∧
                strings.EqualFold attr.Val "password" = true) ∨
           (∃ a ∈ f.subtree, a.Typ = NodeType.ElementNode ∧ a.Data = "a" ∧
              (strings.Contains (strings.ToLower (getText a)) "login" = true ∨
               strings.Contains (strings.ToLower (getText a)) "sign in" = true ∨
               strings.Contains (strings.ToLower (getText a)) "continue with" = true))))) ∧
    (detectLoginForm Context.Background examples.passwordForm).sent = [true] ∧
    (detectLoginForm Context.Background examples.socialForm).sent = [true] ∧
    (detectLoginForm Context.Background examples.plainForm).sent = [false] := by
  refine ⟨?_, by decide, by decide, by decide⟩
  intro doc
  refine ⟨detectLoginForm.traverse doc false, ?_, ?_⟩
  · simp [detectLoginForm, isCancelled, Context.Background]
  · rw [login_traverse_eq, Bool.false_or, List.any_eq_true]
    simp only [Bool.and_eq_true, Bool.or_eq_true, containsPasswordInput_iff,
      containsLoginAnchor_iff, Node.isElement, decide_eq_true_eq, and_assoc]
    rfl

/-! ## The end-to-end page -/

theorem getLinkStats_background (lib : url.Library) (baseURL : url.URL) (doc : Node) :
    getLinkStats lib Context.Background doc baseURL =
      ⟨[{ Internal := ((hrefs doc.subtree).filter
              (fun h => decide (linkPolicy lib baseURL h = .internal))).length,
          External := ((hrefs doc.subtree).filter
              (fun h => decide (linkPolicy lib baseURL h = .external))).length,
          Inaccessible := ((hrefs doc.subtree).filter
              (fun h => decide (linkPolicy lib baseURL h = .inaccessible))).length }], 1⟩ := by
  simp [getLinkStats, isCancelled, Context.Background, links_traverse_eq, addClasses,
    countClass_eq_hrefs]

/-- C1: for the document tree of the end-to-end page, fetched and parsed without
error for the URL `http://example.com`, with a URL library that parses this base URL
and resolves the three hrefs as Go does, and without cancellation, `AnalyzeURL`
returns a nil error and the report with version HTML 5, title "Test Page", headings
h1:1, h2:1, h3..h6:0, link statistics internal 1, external 1, inaccessible 1 and
`HasLogin` true. -/
theorem AnalyzeURL_end_to_end (lib : url.Library) (env : Env)
    (req : http.Request) (resp : http.Response)
    (hreq : env.NewRequestWithContext "GET" "http://example.com" = .ok req)
    (hdo : env.Do req = .ok resp)
    (hparse : env.Parse resp.Body = .ok examples.page)
    (hbase : lib.Parse "http://example.com" = .ok examples.base)
    (hext : Resolves lib examples.base "https://external.com" "https" "external.com")
    (hint : Resolves lib examples.base "/internal" "http" "example.com")
    (hmail : Resolves lib examples.base "mailto:someone@example.com" "mailto" "") :
    AnalyzeURL lib env (fun _ => Context.Background) "http://example.com" =
      .returned
        { HTMLVersion := "HTML 5",
          Title := "Test Page",
          Headings := [("h1", 1), ("h2", 1), ("h3", 0), ("h4", 0), ("h5", 0), ("h6", 0)],
          Links := { Internal := 1, External := 1, Inaccessible := 1 },
          HasLogin := true } none := by
  have hv : getHTMLVersion Context.Background examples.page = ⟨["HTML 5"], 1⟩ := by decide
  have ht : getPageTitle Context.Background examples.page = ⟨["Test Page"], 1⟩ := by decide
  have hh : getHeadingsCount Context.Background examples.page =
      ⟨[[("h1", 1), ("h2", 1), ("h3", 0), ("h4", 0), ("h5", 0), ("h6", 0)]], 1⟩ := by decide
  have hf : detectLoginForm Context.Background examples.page = ⟨[true], 1⟩ := by decide
  have hrefs_page : hrefs examples.page.subtree =
      ["https://external.com", "/internal", "mailto:someone@example.com"] := by decide
  have p1 : linkPolicy lib examples.base "https://external.com" = .external := by
    rw [linkPolicy_of_resolves_ascii lib examples.base "https://external.com" "https"
      "external.com" (by decide) (by decide) hext (by decide) (by decide)]
    decide
  have p2 : linkPolicy lib examples.base "/internal" = .internal := by
    rw [linkPolicy_of_resolves_ascii lib examples.base "/internal" "http" "example.com"
      (by decide) (by decide) hint (by decide) (by decide)]
    decide
  have p3 : linkPolicy lib examples.base "mailto:someone@example.com" = .inaccessible := by
    rw [linkPolicy_of_resolves_ascii lib examples.base "mailto:someone@example.com" "mailto" ""
      (by decide) (by decide) hmail (by decide) (by decide)]
    decide
  have hl : getLinkStats lib Context.Background examples.page examples.base =
      ⟨[⟨1, 1, 1⟩], 1⟩ := by
    rw [getLinkStats_background, hrefs_page]
    simp [p1, p2, p3]
  simp only [AnalyzeURL, hreq, hdo, hparse, hbase, hv, ht, hh, hf, hl]
  rfl

/-- Witness of C1: the example collaborators and the example URL library satisfy
the hypotheses, and `AnalyzeURL` returns the report. -/
theorem AnalyzeURL_end_to_end_witness :
    AnalyzeURL examples.library examples.env (fun _ => Context.Background)
        "http://example.com" =
      .returned
        { HTMLVersion := "HTML 5",
          Title := "Test Page",
          Headings := [("h1", 1), ("h2", 1), ("h3", 0), ("h4", 0), ("h5", 0), ("h6", 0)],
          Links := { Internal := 1, External := 1, Inaccessible := 1 },
          HasLogin := true } none :=
  AnalyzeURL_end_to_end examples.library examples.env ⟨"GET", "http://example.com"⟩
    ⟨200, examples.pageHTML⟩ rfl rfl rfl rfl
    ⟨_, rfl, rfl, rfl⟩ ⟨_, rfl, rfl, rfl⟩ ⟨_, rfl, rfl, rfl⟩


/-! ## Cancellation and the join -/

theorem getHTMLVersion_eq (ctx : Context) (doc : Node) :
    getHTMLVersion ctx doc =
      ⟨if ctx .entry = true ∨ ctx .publish = true then []
        else [getHTMLVersion.scan "Unknown" doc.children], 1⟩ := by
  unfold getHTMLVersion isCancelled
  cases ctx .entry <;> cases ctx .publish <;> simp

theorem getPageTitle_eq (ctx : Context) (doc : Node) :
    getPageTitle ctx doc =
      ⟨if ctx .entry = true ∨ ctx .publish = true then []
        else [match getPageTitle.findHtml doc.children with
              | some head => getPageTitle.findTitle "" head.children
              | none => ""], 1⟩ := by
  unfold getPageTitle isCancelled
  cases ctx .entry <;> cases ctx .publish <;> simp

theorem getHeadingsCount_eq (ctx : Context) (doc : Node) :
    getHeadingsCount ctx doc =
      ⟨if ctx .entry = true ∨ ctx .publish = true then []
        else [getHeadingsCount.traverse doc
          [("h1", 0), ("h2", 0), ("h3", 0), ("h4", 0), ("h5", 0), ("h6", 0)]], 1⟩ := by
  unfold getHeadingsCount isCancelled
  cases ctx .entry <;> cases ctx .publish <;> simp

theorem getLinkStats_eq (lib : url.Library) (ctx : Context) (doc : Node)
    (baseURL : url.URL) :
    getLinkStats lib ctx doc baseURL =
      ⟨if ctx .entry = true ∨ ctx .publish = true then []
        else [getLinkStats.traverse lib baseURL doc ⟨0, 0, 0⟩], 1⟩ := by
  unfold getLinkStats isCancelled
  cases ctx .entry <;> cases ctx .publish <;> simp

theorem detectLoginForm_eq (ctx : Context) (doc : Node) :
    detectLoginForm ctx doc =
      ⟨if ctx .entry = true ∨ ctx .publish = true then []
        else [detectLoginForm.traverse doc false], 1⟩ := by
  unfold detectLoginForm isCancelled
  cases ctx .entry <;> cases ctx .publish <;> simp

/-- C12: each of the five extractors, on every tree, sends nothing on its result
channel when it observes cancellation at its entry check or at its check before
publishing, and otherwise sends exactly one value, the fact computed on the whole
tree; in both cases it calls `wg.Done()` exactly once. -/
theorem extractors_publish_or_abort :
    (∀ (ctx : Context) (doc : Node),
      (getHTMLVersion ctx doc).done = 1 ∧
      (getHTMLVersion ctx doc).sent =
        if isCancelled ctx .entry = true ∨ isCancelled ctx .publish = true then []
        else [getHTMLVersion.scan "Unknown" doc.children]) ∧
    (∀ (ctx : Context) (doc : Node),
      (getPageTitle ctx doc).done = 1 ∧
      (getPageTitle ctx doc).sent =
        if isCancelled ctx .entry = true ∨ isCancelled ctx .publish = true then []
        else [match getPageTitle.findHtml doc.children with
              | some head => getPageTitle.findTitle "" head.children
              | none => ""]) ∧
    (∀ (ctx : Context) (doc : Node),
      (getHeadingsCount ctx doc).done = 1 ∧
      (getHeadingsCount ctx doc).sent =
        if isCancelled ctx .entry = true ∨ isCancelled ctx .publish = true then []
        else [getHeadingsCount.traverse doc
          [("h1", 0), ("h2", 0), ("h3", 0), ("h4", 0), ("h5", 0), ("h6", 0)]]) ∧
    (∀ (lib : url.Library) (ctx : Context) (doc : Node) (baseURL : url.URL),
      (getLinkStats lib ctx doc baseURL).done = 1 ∧
      (getLinkStats lib ctx doc baseURL).sent =
        if isCancelled ctx .entry = true ∨ isCancelled ctx .publish = true then []
        else [getLinkStats.traverse lib baseURL doc ⟨0, 0, 0⟩]) ∧
    (∀ (ctx : Context) (doc : Node),
      (detectLoginForm ctx doc).done = 1 ∧
      (detectLoginForm ctx doc).sent =
        if isCancelled ctx .entry = true ∨ isCancelled ctx .publish = true then []
        else [detectLoginForm.traverse doc false]) := by
  refine ⟨?_, ?_, ?_, ?_, ?_⟩
  · intro ctx doc; rw [getHTMLVersion_eq]; exact ⟨rfl, rfl⟩
  · intro ctx doc; rw [getPageTitle_eq]; exact ⟨rfl, rfl⟩
  · intro ctx doc; rw [getHeadingsCount_eq]; exact ⟨rfl, rfl⟩
  · intro lib ctx doc baseURL; rw [getLinkStats_eq]; exact ⟨rfl, rfl⟩
  · intro ctx doc; rw [detectLoginForm_eq]; exact ⟨rfl, rfl⟩

/-- Once the fetch, the parse and the parse of the page URL have succeeded,
`AnalyzeURL` never returns if some extractor observed cancellation. -/
theorem AnalyzeURL_blocked_of_cancel (lib : url.Library) (env : Env)
    (ctx : Extractor → Context) (pageURL : String) (req : http.Request)
    (resp : http.Response) (doc : Node) (parsedURL : url.URL)
    (hreq : env.NewRequestWithContext "GET" pageURL = .ok req)
    (hdo : env.Do req = .ok resp)
    (hparse : env.Parse resp.Body = .ok doc)
    (hbase : lib.Parse pageURL = .ok parsedURL)
    (hc : ∃ e, ctx e .entry = true ∨ ctx e .publish = true) :
    AnalyzeURL lib env ctx pageURL = .blocked := by
  simp only [AnalyzeURL, hreq, hdo, hparse, hbase, getHTMLVersion_eq, getPageTitle_eq,
    getHeadingsCount_eq, getLinkStats_eq, detectLoginForm_eq, receive]
  obtain ⟨e, he⟩ := hc
  cases e <;> simp only [he, if_true, List.head?_nil] <;> split <;> simp_all

/-- Once the fetch, the parse and the parse of the page URL have succeeded,
`AnalyzeURL` returns the five computed facts if no extractor observed cancellation. -/
theorem AnalyzeURL_returned_of_no_cancel (lib : url.Library) (env : Env)
    (ctx : Extractor → Context) (pageURL : String) (req : http.Request)
    (resp : http.Response) (doc : Node) (parsedURL : url.URL)
    (hreq : env.NewRequestWithContext "GET" pageURL = .ok req)
    (hdo : env.Do req = .ok resp)
    (hparse : env.Parse resp.Body = .ok doc)
    (hbase : lib.Parse pageURL = .ok parsedURL)
    (hc : ∀ e, ctx e .entry = false ∧ ctx e .publish = false) :
    AnalyzeURL lib env ctx pageURL =
      .returned
        { HTMLVersion := getHTMLVersion.scan "Unknown" doc.children,
          Title := (match getPageTitle.findHtml doc.children with
                    | some head => getPageTitle.findTitle "" head.children
                    | none => ""),
          Headings := getHeadingsCount.traverse doc
            [("h1", 0), ("h2", 0), ("h3", 0), ("h4", 0), ("h5", 0), ("h6", 0)],
          Links := getLinkStats.traverse lib parsedURL doc ⟨0, 0, 0⟩,
          HasLogin := detectLoginForm.traverse doc false } none := by
  simp [AnalyzeURL, hreq, hdo, hparse, hbase, getHTMLVersion_eq, getPageTitle_eq,
    getHeadingsCount_eq, getLinkStats_eq, detectLoginForm_eq, receive, hc]

/-- C11 (defect of the code): when the fetch and the parse have succeeded and some
extractor observes cancellation, at its entry check or before publishing (in
particular when the signal is set before any extractor starts), `AnalyzeURL` does not
return to its caller at all: the extractor sends nothing and the receive on its
channel blocks for ever. -/
theorem AnalyzeURL_cancelled_never_returns (lib : url.Library) (env : Env)
    (ctx : Extractor → Context) (pageURL : String) (req : http.Request)
    (resp : http.Response) (doc : Node) (parsedURL : url.URL)
    (hreq : env.NewRequestWithContext "GET" pageURL = .ok req)
    (hdo : env.Do req = .ok resp)
    (hparse : env.Parse resp.Body = .ok doc)
    (hbase : lib.Parse pageURL = .ok parsedURL)
    (hc : ∃ e, ctx e .entry = true ∨ ctx e .publish = true) :
    AnalyzeURL lib env ctx pageURL = .blocked ∧
    ∀ info err, AnalyzeURL lib env ctx pageURL ≠ .returned info err := by
  have h := AnalyzeURL_blocked_of_cancel lib env ctx pageURL req resp doc parsedURL
    hreq hdo hparse hbase hc
  refine ⟨h, ?_⟩
  intro info err
  rw [h]
  exact fun e => Outcome.noConfusion e

/-- Witness of C11: the end-to-end page is served and the context is cancelled before
any extractor starts; the call never returns. -/
theorem AnalyzeURL_cancelled_never_returns_witness :
    AnalyzeURL examples.library examples.env examples.cancelled "http://example.com" =
      .blocked ∧
    ∀ info err, AnalyzeURL examples.library examples.env examples.cancelled
      "http://example.com" ≠ .returned info err :=
  AnalyzeURL_cancelled_never_returns examples.library examples.env examples.cancelled
    "http://example.com" ⟨"GET", "http://example.com"⟩ ⟨200, examples.pageHTML⟩
    examples.page examples.base rfl rfl rfl rfl ⟨.version, Or.inl rfl⟩

theorem Join.run_comm (lib : url.Library) (ctx : Extractor → Context) (doc : Node)
    (parsedURL : url.URL) (s : Join) (e₁ e₂ : Extractor) :
    Join.run lib ctx doc parsedURL e₂ (Join.run lib ctx doc parsedURL e₁ s) =
      Join.run lib ctx doc parsedURL e₁ (Join.run lib ctx doc parsedURL e₂ s) := by
  cases e₁ <;> cases e₂ <;> simp [Join.run, sub_right_comm]

theorem AnalyzeURL_scheduled_eq (lib : url.Library) (env : Env) (ctx : Extractor → Context)
    (pageURL : String) (order : List Extractor) (hp : order.Perm Extractor.all) :
    AnalyzeURL.scheduled lib env ctx pageURL order = AnalyzeURL lib env ctx pageURL := by
  unfold AnalyzeURL.scheduled AnalyzeURL
  cases env.NewRequestWithContext "GET" pageURL with
  | error e => rfl
  | ok req =>
    simp only
    cases env.Do req with
    | error e => rfl
    | ok resp =>
      simp only
      cases env.Parse resp.Body with
      | error e => rfl
      | ok doc =>
        simp only
        cases lib.Parse pageURL with
        | error e => rfl
        | ok parsedURL =>
          simp only
          rw [List.Perm.foldl_eq' hp
            (fun x _ y _ z => Join.run_comm lib ctx doc parsedURL z x y)]
          simp only [Extractor.all, List.foldl, Join.run, Join.init, Join.collect,
            getHTMLVersion_eq, getPageTitle_eq, getHeadingsCount_eq, getLinkStats_eq,
            detectLoginForm_eq, receive, List.nil_append]
          norm_num

/-- C13: when the fetch, the parse and the parse of the page URL succeed and
cancellation is never signalled, `AnalyzeURL` returns a nil error and the `PageInfo`
whose five fields are the values the five extractors send when run individually on
the same tree and base URL; the result is the same for every order in which the
scheduler lets the five goroutines run and finish. -/
theorem AnalyzeURL_deterministic (lib : url.Library) (env : Env) (pageURL : String)
    (req : http.Request) (resp : http.Response) (doc : Node) (parsedURL : url.URL)
    (hreq : env.NewRequestWithContext "GET" pageURL = .ok req)
    (hdo : env.Do req = .ok resp)
    (hparse : env.Parse resp.Body = .ok doc)
    (hbase : lib.Parse pageURL = .ok parsedURL) :
    ∃ version title headings links login,
      (getHTMLVersion Context.Background doc).sent = [version] ∧
      (getPageTitle Context.Background doc).sent = [title] ∧
      (getHeadingsCount Context.Background doc).sent = [headings] ∧
      (getLinkStats lib Context.Background doc parsedURL).sent = [links] ∧
      (detectLoginForm Context.Background doc).sent = [login] ∧
      AnalyzeURL lib env (fun _ => Context.Background) pageURL =
        .returned
          { HTMLVersion := version, Title := title, Headings := headings,
            Links := links, HasLogin := login } none ∧
      ∀ order : List Extractor, order.Perm Extractor.all →
        AnalyzeURL.scheduled lib env (fun _ => Context.Background) pageURL order =
          .returned
            { HTMLVersion := version, Title := title, Headings := headings,
              Links := links, HasLogin := login } none := by
  have hret := AnalyzeURL_returned_of_no_cancel lib env (fun _ => Context.Background)
    pageURL req resp doc parsedURL hreq hdo hparse hbase (fun _ => ⟨rfl, rfl⟩)
  refine ⟨_, _, _, _, _, ?_, ?_, ?_, ?_, ?_, hret, ?_⟩
  · rw [getHTMLVersion_eq]; rfl
  · rw [getPageTitle_eq]; rfl
  · rw [getHeadingsCount_eq]; rfl
  · rw [getLinkStats_eq]; rfl
  · rw [detectLoginForm_eq]; rfl
  · intro order hp
    rw [AnalyzeURL_scheduled_eq lib env _ pageURL order hp, hret]

/-- Witness of C13: the end-to-end page, served by the example collaborators, with
the goroutines finishing in the reverse of their starting order. -/
theorem AnalyzeURL_deterministic_witness :
    AnalyzeURL.scheduled examples.library examples.env (fun _ => Context.Background)
        "http://example.com" [.login, .links, .headings, .title, .version] =
      AnalyzeURL examples.library examples.env (fun _ => Context.Background)
        "http://example.com" := by
  obtain ⟨v, t, h, l, f, _, _, _, _, _, hret, hsched⟩ :=
    AnalyzeURL_deterministic examples.library examples.env "http://example.com"
      ⟨"GET", "http://example.com"⟩ ⟨200, examples.pageHTML⟩ examples.page examples.base
      rfl rfl rfl rfl
  rw [hret, hsched _ (by decide)]

/-- C16: for one document tree served for two page URLs, hence analysed against two
base URLs, the two calls of `AnalyzeURL` either both never return or both return a
report with a nil error, and the two reports have the same version, title, heading
counts and login flag: the base URL reaches the link statistics only. -/
theorem AnalyzeURL_base_only_links (lib : url.Library) (env : Env)
    (ctx : Extractor → Context) (pageURL pageURL' : String)
    (req req' : http.Request) (resp resp' : http.Response) (doc : Node)
    (parsedURL parsedURL' : url.URL)
    (hreq : env.NewRequestWithContext "GET" pageURL = .ok req)
    (hdo : env.Do req = .ok resp)
    (hparse : env.Parse resp.Body = .ok doc)
    (hbase : lib.Parse pageURL = .ok parsedURL)
    (hreq' : env.NewRequestWithContext "GET" pageURL' = .ok req')
    (hdo' : env.Do req' = .ok resp')
    (hparse' : env.Parse resp'.Body = .ok doc)
    (hbase' : lib.Parse pageURL' = .ok parsedURL') :
    (AnalyzeURL lib env ctx pageURL = .blocked ∧
      AnalyzeURL lib env ctx pageURL' = .blocked) ∨
    ∃ info info', AnalyzeURL lib env ctx pageURL = .returned info none ∧
      AnalyzeURL lib env ctx pageURL' = .returned info' none ∧
      info.HTMLVersion = info'.HTMLVersion ∧ info.Title = info'.Title ∧
      info.Headings = info'.Headings ∧ info.HasLogin = info'.HasLogin := by
  by_cases hc : ∃ e, ctx e .entry = true ∨ ctx e .publish = true
  · exact Or.inl
      ⟨AnalyzeURL_blocked_of_cancel lib env ctx pageURL req resp doc parsedURL
        hreq hdo hparse hbase hc,
       AnalyzeURL_blocked_of_cancel lib env ctx pageURL' req' resp' doc parsedURL'
        hreq' hdo' hparse' hbase' hc⟩
  · have hno : ∀ e, ctx e .entry = false ∧ ctx e .publish = false := by
      intro e
      constructor
      · cases h : ctx e .entry
        · rfl
        · exact absurd ⟨e, Or.inl h⟩ hc
      · cases h : ctx e .publish
        · rfl
        · exact absurd ⟨e, Or.inr h⟩ hc
    exact Or.inr ⟨_, _,
      AnalyzeURL_returned_of_no_cancel lib env ctx pageURL req resp doc parsedURL
        hreq hdo hparse hbase hno,
      AnalyzeURL_returned_of_no_cancel lib env ctx pageURL' req' resp' doc parsedURL'
        hreq' hdo' hparse' hbase' hno,
      rfl, rfl, rfl, rfl⟩

/-- Witness of C16: the end-to-end page served for `http://example.com` and for
`https://external.com`: the two reports exist and agree on the four fields, while
their link statistics differ. -/
theorem AnalyzeURL_base_only_links_witness :
    ((AnalyzeURL examples.library examples.env (fun _ => Context.Background)
        "http://example.com" = .blocked ∧
      AnalyzeURL examples.library examples.env (fun _ => Context.Background)
        "https://external.com" = .blocked) ∨
    ∃ info info',
      AnalyzeURL examples.library examples.env (fun _ => Context.Background)
        "http://example.com" = .returned info none ∧
      AnalyzeURL examples.library examples.env (fun _ => Context.Background)
        "https://external.com" = .returned info' none ∧
      info.HTMLVersion = info'.HTMLVersion ∧ info.Title = info'.Title ∧
      info.Headings = info'.Headings ∧ info.HasLogin = info'.HasLogin) ∧
    (getLinkStats examples.library Context.Background examples.page examples.base).sent =
      [⟨1, 1, 1⟩] ∧
    (getLinkStats examples.library Context.Background examples.page
      { Scheme := "https", Opaque := "", User := none, Host := "external.com", Path := "",
        RawQuery := "", Fragment := "" }).sent = [⟨2, 0, 1⟩] :=
  ⟨AnalyzeURL_base_only_links examples.library examples.env (fun _ => Context.Background)
      "http://example.com" "https://external.com" ⟨"GET", "http://example.com"⟩
      ⟨"GET", "https://external.com"⟩ ⟨200, examples.pageHTML⟩ ⟨200, examples.pageHTML⟩
      examples.page examples.base
      { Scheme := "https", Opaque := "", User := none, Host := "external.com", Path := "",
        RawQuery := "", Fragment := "" }
      rfl rfl rfl rfl rfl rfl rfl rfl,
   by decide, by decide⟩

/-- C17: when the HTTP client returns an error `e`, `AnalyzeURL` returns the zero
`PageInfo` and the error "failed to fetch URL: " followed by the message of `e`,
whatever the parser, the URL library and the context are: no extractor runs. -/
theorem AnalyzeURL_fetch_error (lib : url.Library) (env : Env)
    (ctx : Extractor → Context) (pageURL : String) (req : http.Request) (e : String)
    (hreq : env.NewRequestWithContext "GET" pageURL = .ok req)
    (hdo : env.Do req = .error e) :
    AnalyzeURL lib env ctx pageURL =
      .returned
        { HTMLVersion := "", Title := "", Headings := [], Links := ⟨0, 0, 0⟩,
          HasLogin := false }
        (some ("failed to fetch URL: " ++ e)) := by
  simp only [AnalyzeURL, hreq, hdo]
  rfl

/-- Witness of C17: a client failing with "mocked network error", under a context
that is cancelled from the start. -/
theorem AnalyzeURL_fetch_error_witness :
    AnalyzeURL examples.library examples.failingEnv examples.cancelled
        "http://example.com" =
      .returned
        { HTMLVersion := "", Title := "", Headings := [], Links := ⟨0, 0, 0⟩,
          HasLogin := false }
        (some "failed to fetch URL: mocked network error") :=
  AnalyzeURL_fetch_error examples.library examples.failingEnv examples.cancelled
    "http://example.com" ⟨"GET", "http://example.com"⟩ "mocked network error" rfl rfl


/-! ## First href only -/

theorem hrefs_cons (n : Node) (l : List Node) :
    hrefs (n :: l) = hrefs [n] ++ hrefs l := by
  unfold hrefs
  rw [← List.filterMap_append]
  rfl

theorem hrefs_append (l₁ l₂ : List Node) : hrefs (l₁ ++ l₂) = hrefs l₁ ++ hrefs l₂ := by
  unfold hrefs
  rw [List.filterMap_append]

theorem hrefs_singleton (t : NodeType) (d : String) (attrs : List Attribute)
    (cs : List Node) :
    hrefs [Node.mk t d attrs cs] =
      if t = NodeType.ElementNode ∧ d = "a" then
        ((attrs.find? (fun attr => attr.Key = "href")).map (fun attr => attr.Val)).toList
      else [] := by
  unfold hrefs firstHref
  by_cases ha : t = NodeType.ElementNode ∧ d = "a"
  · obtain ⟨rfl, rfl⟩ := ha
    have he : (Node.mk NodeType.ElementNode "a" attrs cs).isElement "a" = true := by
      simp [Node.isElement, Node.Typ, Node.Data]
    simp only [List.filterMap_cons, List.filterMap_nil, he, if_true, Node.Attr, and_self]
    cases attrs.find? (fun attr => decide (attr.Key = "href")) <;> rfl
  · have he : (Node.mk t d attrs cs).isElement "a" = false := by
      simpa [Node.isElement, Node.Typ, Node.Data] using ha
    simp [he, ha]

mutual
theorem hrefs_of_sameFirstHrefs : ∀ (n n' : Node), SameFirstHrefs n n' →
    hrefs n.subtree = hrefs n'.subtree
  | .mk t d attrs cs, .mk t' d' attrs' cs', h => by
    rw [SameFirstHrefs] at h
    obtain ⟨rfl, rfl, hattr, hcs⟩ := h
    rw [Node.subtree, Node.subtree, hrefs_cons, hrefs_cons _ (Node.subtreeList cs'),
      hrefs_of_sameFirstHrefsList cs cs' hcs]
    rw [hrefs_singleton, hrefs_singleton]
    by_cases ha : t = NodeType.ElementNode ∧ d = "a"
    · rw [if_pos ha] at hattr
      rw [if_pos ha, if_pos ha, hattr]
    · rw [if_neg ha, if_neg ha]
theorem hrefs_of_sameFirstHrefsList : ∀ (cs cs' : List Node), SameFirstHrefsList cs cs' →
    hrefs (Node.subtreeList cs) = hrefs (Node.subtreeList cs')
  | [], [], _ => rfl
  | [], _ :: _, h => by rw [SameFirstHrefsList] at h; exact h.elim
  | _ :: _, [], h => by rw [SameFirstHrefsList] at h; exact h.elim
  | c :: cs, c' :: cs', h => by
    rw [SameFirstHrefsList] at h
    rw [Node.subtreeList, Node.subtreeList, hrefs_append, hrefs_append,
      hrefs_of_sameFirstHrefs c c' h.1, hrefs_of_sameFirstHrefsList cs cs' h.2]
end

theorem getLinkStats_hrefs (lib : url.Library) (ctx : Context) (baseURL : url.URL)
    (doc : Node) :
    getLinkStats lib ctx doc baseURL =
      ⟨if ctx .entry = true ∨ ctx .publish = true then []
        else [{ Internal := ((hrefs doc.subtree).filter
                  (fun h => decide (linkPolicy lib baseURL h = .internal))).length,
                External := ((hrefs doc.subtree).filter
                  (fun h => decide (linkPolicy lib baseURL h = .external))).length,
                Inaccessible := ((hrefs doc.subtree).filter
                  (fun h => decide (linkPolicy lib baseURL h = .inaccessible))).length }],
       1⟩ := by
  rw [getLinkStats_eq, links_traverse_eq]
  simp [addClasses, countClass_eq_hrefs]

/-- C14: the link statistics depend only on the first `href` of every `a` element:
two trees that differ at most in attributes of `a` elements other than the first
href of each get the same statistics, for every URL library, base URL and context;
the attributes after the first href are not read at all, so a first href classified
inaccessible is not retried against a later one. -/
theorem getLinkStats_first_href_only :
    (∀ (lib : url.Library) (ctx : Context) (baseURL : url.URL) (doc doc' : Node),
      SameFirstHrefs doc doc' →
      getLinkStats lib ctx doc baseURL = getLinkStats lib ctx doc' baseURL) ∧
    (∀ (lib : url.Library) (baseURL : url.URL) (attr : Attribute)
        (before after : List Attribute) (stats : LinkStats),
      attr.Key = "href" → (∀ b ∈ before, b.Key ≠ "href") →
      getLinkStats.rangeAttr lib baseURL (before ++ attr :: after) stats =
        getLinkStats.rangeAttr lib baseURL [attr] stats) ∧
    (∀ (lib : url.Library) (baseURL : url.URL),
      (getLinkStats lib Context.Background examples.twoHrefs baseURL).sent = [⟨0, 0, 1⟩]) := by
  refine ⟨?_, ?_, ?_⟩
  · intro lib ctx baseURL doc doc' h
    rw [getLinkStats_hrefs, getLinkStats_hrefs, hrefs_of_sameFirstHrefs doc doc' h]
  · intro lib baseURL attr before after stats hk hb
    rw [rangeAttr_eq, rangeAttr_eq]
    have h1 : (before ++ attr :: after).find? (fun a => decide (a.Key = "href")) = some attr := by
      induction before with
      | nil => simp [hk]
      | cons b bs ih =>
        have hb1 : b.Key ≠ "href" := hb b (List.mem_cons_self _ _)
        simp only [List.cons_append]
        rw [List.find?_cons_of_neg _ (by simpa using hb1)]
        exact ih (fun x hx => hb x (List.mem_cons_of_mem _ hx))
    have h2 : [attr].find? (fun a => decide (a.Key = "href")) = some attr := by simp [hk]
    rw [h1, h2]
  · intro lib baseURL
    rw [getLinkStats_hrefs]
    have hh : hrefs examples.twoHrefs.subtree = ["#"] := by decide
    have hp : linkPolicy lib baseURL "#" = .inaccessible := by
      unfold linkPolicy
      rw [if_pos (Or.inr (by decide))]
    simp [Context.Background, hh, hp]

/-- Witness of C14: the anchor with the attributes `class`, `href="#"`,
`href="/internal"`, `id` and the anchor with the single attribute `href="#"` differ
only outside the first href and get the same statistics. -/
theorem getLinkStats_first_href_only_witness :
    SameFirstHrefs examples.twoHrefs examples.oneHref ∧
    getLinkStats examples.library Context.Background examples.twoHrefs examples.base =
      getLinkStats examples.library Context.Background examples.oneHref examples.base ∧
    getLinkStats.rangeAttr examples.library examples.base
        ([⟨"", "class", "nav"⟩] ++ ⟨"", "href", "#"⟩ :: [⟨"", "href", "/internal"⟩])
        ⟨0, 0, 0⟩ =
      getLinkStats.rangeAttr examples.library examples.base [⟨"", "href", "#"⟩] ⟨0, 0, 0⟩ :=
  have hs : SameFirstHrefs examples.twoHrefs examples.oneHref := by
    simp [examples.twoHrefs, examples.oneHref, examples.document, examples.text,
      SameFirstHrefs, SameFirstHrefsList]
  ⟨hs,
   getLinkStats_first_href_only.1 examples.library Context.Background examples.base
     examples.twoHrefs examples.oneHref hs,
   getLinkStats_first_href_only.2.1 examples.library examples.base ⟨"", "href", "#"⟩
     [⟨"", "class", "nav"⟩] [⟨"", "href", "/internal"⟩] ⟨0, 0, 0⟩ rfl (by decide)⟩

/-- C15: for every `a` element whose first href value, trimmed, is empty or begins
with `#`, the visit of the element increments `Inaccessible` and leaves `Internal`
and `External` as they are, for every base URL and every URL library: neither
`Parse` nor `ResolveReference` decides anything. This holds for an href of white
space only and for the href `  #top`. -/
theorem getLinkStats_fragment_inaccessible :
    (∀ (lib : url.Library) (baseURL : url.URL) (attrs : List Attribute) (attr : Attribute)
        (stats : LinkStats),
      attrs.find? (fun a => a.Key = "href") = some attr →
      (strings.TrimSpace attr.Val = "" ∨
        strings.HasPrefix (strings.TrimSpace attr.Val) "#" = true) →
      getLinkStats.traverse lib baseURL (Node.mk .ElementNode "a" attrs []) stats =
        { Internal := stats.Internal, External := stats.External,
          Inaccessible := stats.Inaccessible + 1 }) ∧
    (∀ (lib : url.Library) (baseURL : url.URL),
      (getLinkStats lib Context.Background
        (examples.document [examples.anchor "  \t " "blank"]) baseURL).sent = [⟨0, 0, 1⟩]) ∧
    (∀ (lib : url.Library) (baseURL : url.URL),
      (getLinkStats lib Context.Background
        (examples.document [examples.anchor "  #top" "Top"]) baseURL).sent = [⟨0, 0, 1⟩]) := by
  refine ⟨?_, ?_, ?_⟩
  · intro lib baseURL attrs attr stats hfind hfrag
    have hstep : getLinkStats.traverse lib baseURL (Node.mk .ElementNode "a" attrs []) stats =
        getLinkStats.rangeAttr lib baseURL attrs stats := by
      simp [getLinkStats.traverse, getLinkStats.traverseChildren]
    rw [hstep, rangeAttr_eq, hfind]
    simp only [linkPolicy]
    rw [if_pos hfrag]
    rfl
  · intro lib baseURL
    rw [getLinkStats_hrefs]
    have hh : hrefs (examples.document [examples.anchor "  \t " "blank"]).subtree =
        ["  \t "] := by decide
    have hp : linkPolicy lib baseURL "  \t " = .inaccessible := by
      unfold linkPolicy
      rw [if_pos (Or.inl (by decide))]
    simp [Context.Background, hh, hp]
  · intro lib baseURL
    rw [getLinkStats_hrefs]
    have hh : hrefs (examples.document [examples.anchor "  #top" "Top"]).subtree =
        ["  #top"] := by decide
    have hp : linkPolicy lib baseURL "  #top" = .inaccessible := by
      unfold linkPolicy
      rw [if_pos (Or.inr (by decide))]
    simp [Context.Background, hh, hp]

/-- Witness of C15: the attributes `class`, `href="  #top"`, `href="/internal"`
against the example library, which would classify `/internal` as internal. -/
theorem getLinkStats_fragment_inaccessible_witness :
    getLinkStats.traverse examples.library examples.base
        (Node.mk .ElementNode "a"
          [⟨"", "class", "nav"⟩, ⟨"", "href", "  #top"⟩, ⟨"", "href", "/internal"⟩] [])
        ⟨3, 2, 1⟩ = ⟨3, 2, 2⟩ :=
  getLinkStats_fragment_inaccessible.1 examples.library examples.base
    [⟨"", "class", "nav"⟩, ⟨"", "href", "  #top"⟩, ⟨"", "href", "/internal"⟩]
    ⟨"", "href", "  #top"⟩ ⟨3, 2, 1⟩ rfl (Or.inr (by decide))


/-! ## Text of a node -/

theorem join_cons (a : String) (l : List String) :
    String.join (a :: l) = a ++ String.join l := by
  apply String.ext
  simp [String.data_join]

theorem join_append (l₁ l₂ : List String) :
    String.join (l₁ ++ l₂) = String.join l₁ ++ String.join l₂ := by
  apply String.ext
  simp [String.data_join]

theorem getText_loop_eq : ∀ (cs : List Node) (sb : String),
    getText.loop cs sb = sb ++ String.join (cs.map getText)
  | [], sb => by
    rw [getText.loop]
    apply String.ext
    simp [String.data_join]
  | c :: cs, sb => by
    rw [getText.loop, getText_loop_eq cs, List.map_cons, join_cons]
    apply String.ext
    simp

theorem textContents_append (l₁ l₂ : List Node) :
    textContents (l₁ ++ l₂) = textContents l₁ ++ textContents l₂ := by
  simp [textContents]

mutual
theorem getText_eq_of_textLeaves : ∀ n : Node,
    (∀ m ∈ n.subtree, m.Typ = NodeType.TextNode → m.children = []) →
    getText n = String.join (textContents n.subtree)
  | .mk t d a cs, h => by
    rw [getText, Node.subtree]
    by_cases ht : t = NodeType.TextNode
    · have hcs : cs = [] := h (.mk t d a cs) (List.mem_cons_self _ _) ht
      subst hcs
      rw [if_pos ht]
      apply String.ext
      simp [textContents, Node.subtreeList, Node.Typ, Node.Data, ht, String.data_join]
    · rw [if_neg ht, getText_loop_eq,
        getTextList_eq_of_textLeaves cs (fun m hm => h m (List.mem_cons_of_mem _ hm))]
      apply String.ext
      simp [textContents, Node.Typ, ht, String.data_join]
theorem getTextList_eq_of_textLeaves : ∀ cs : List Node,
    (∀ m ∈ Node.subtreeList cs, m.Typ = NodeType.TextNode → m.children = []) →
    String.join (cs.map getText) = String.join (textContents (Node.subtreeList cs))
  | [], _ => rfl
  | c :: cs, h => by
    rw [Node.subtreeList] at h
    rw [List.map_cons, join_cons, Node.subtreeList, textContents_append, join_append,
      getText_eq_of_textLeaves c (fun m hm => h m (List.mem_append_left _ hm)),
      getTextList_eq_of_textLeaves cs (fun m hm => h m (List.mem_append_right _ hm))]
end

/-- C19: for every node `n` of a document tree (a tree whose Text nodes are leaves),
`getText n` is the concatenation, in document order and without separator, of the
contents of the Text nodes of the subtree of `n`, which is the content of `n` when
`n` is a Text node; so the anchor `<a>Log<b>in</b></a>` has the text "Login" and a
form that contains it qualifies as a login form. -/
theorem getText_concatenation :
    (∀ n : Node, TextLeaves n →
      getText n =
        String.join ((n.subtree.filter
          (fun m => decide (m.Typ = NodeType.TextNode))).map Node.Data)) ∧
    (∀ n : Node, n.Typ = NodeType.TextNode → getText n = n.Data) ∧
    getText (examples.element "a"
      [examples.text "Log", examples.element "b" [examples.text "in"]]) = "Login" ∧
    (detectLoginForm Context.Background examples.splitKeywordForm).sent = [true] := by
  refine ⟨?_, ?_, by decide, by decide⟩
  · intro n h
    exact getText_eq_of_textLeaves n h
  · intro n ht
    cases n with
    | mk t d a cs =>
      have ht' : t = NodeType.TextNode := ht
      rw [getText, if_pos ht']
      rfl

/-- Witness of C19: the anchor `<a>Log<b>in</b></a>` is a tree whose Text nodes are
leaves, and its text is the concatenation of "Log" and "in". -/
theorem getText_concatenation_witness :
    TextLeaves (examples.element "a"
      [examples.text "Log", examples.element "b" [examples.text "in"]]) ∧
    getText (examples.element "a"
      [examples.text "Log", examples.element "b" [examples.text "in"]]) =
      String.join ["Log", "in"] ∧
    getText (examples.text "Log") = "Log" :=
  have hl : TextLeaves (examples.element "a"
      [examples.text "Log", examples.element "b" [examples.text "in"]]) := by
    simp [TextLeaves, examples.element, examples.text, Node.subtree, Node.subtreeList,
      Node.Typ, Node.children]
  ⟨hl, getText_concatenation.1 _ hl, getText_concatenation.2.1 _ rfl⟩


/-! ## Totality and guarded reads -/

theorem findTitleChecked_eq (title : String) : ∀ l : List Node,
    getPageTitle.findTitleChecked title l = .ok (getPageTitle.findTitle title l)
  | [] => rfl
  | c :: rest => by
    rw [getPageTitle.findTitleChecked, getPageTitle.findTitle]
    by_cases h : c.Typ = NodeType.ElementNode ∧ c.Data = "title"
    · cases hcs : c.children with
      | nil =>
        simp [h, hcs, FirstChild, findTitleChecked_eq title rest]
      | cons f fs =>
        simp [h, hcs, FirstChild, Ptr.Data]
    · have h' : ¬ (c.Typ = NodeType.ElementNode ∧ c.Data = "title" ∧
          (FirstChild c).isSome = true) := fun hh => h ⟨hh.1, hh.2.1⟩
      rw [if_neg h', if_neg h, findTitleChecked_eq title rest]

theorem subtree_length_le_of_mem (c : Node) : ∀ cs : List Node, c ∈ cs →
    c.subtree.length ≤ (Node.subtreeList cs).length
  | [], h => by simp at h
  | x :: xs, h => by
    rw [Node.subtreeList, List.length_append]
    rcases List.mem_cons.mp h with rfl | hmem
    · omega
    · have := subtree_length_le_of_mem c xs hmem
      omega

/-- C20: for every document tree and base URL, with no cancellation, each of the
five extractors finishes and sends exactly one value; the read `c.FirstChild.Data`
of `getPageTitle`, modelled as failing on a nil pointer, never fails because the
test `c.FirstChild != nil` precedes it, and it yields the value that is sent; a
document without `html` element, without `head` under it, or without `title` under
the head gets the empty title; and every child of a node has a strictly smaller
subtree than the node, so the recursive traversals, which call themselves on
children only, terminate. -/
theorem extractors_total :
    (∀ (lib : url.Library) (baseURL : url.URL) (doc : Node),
      ∃ version title headings links login,
        getHTMLVersion Context.Background doc = ⟨[version], 1⟩ ∧
        getPageTitle Context.Background doc = ⟨[title], 1⟩ ∧
        getHeadingsCount Context.Background doc = ⟨[headings], 1⟩ ∧
        getLinkStats lib Context.Background doc baseURL = ⟨[links], 1⟩ ∧
        detectLoginForm Context.Background doc = ⟨[login], 1⟩) ∧
    (∀ doc : Node, ∃ title, getPageTitle.checked doc = .ok title ∧
      (getPageTitle Context.Background doc).sent = [title]) ∧
    (∀ doc : Node, (∀ c ∈ doc.children, c.isElement "html" = false) →
      (getPageTitle Context.Background doc).sent = [""]) ∧
    (∀ doc html : Node, doc.children.find? (fun c => c.isElement "html") = some html →
      (∀ hc ∈ html.children, hc.isElement "head" = false) →
      (getPageTitle Context.Background doc).sent = [""]) ∧
    (∀ doc head : Node, headOf doc = some head →
      (∀ c ∈ head.children, c.isElement "title" = false) →
      (getPageTitle Context.Background doc).sent = [""]) ∧
    (∀ (n c : Node), c ∈ n.children → c.subtree.length < n.subtree.length) := by
  refine ⟨?_, ?_, ?_, ?_, ?_, ?_⟩
  · intro lib baseURL doc
    exact ⟨_, _, _, _, _, by rw [getHTMLVersion_eq]; rfl, by rw [getPageTitle_eq]; rfl,
      by rw [getHeadingsCount_eq]; rfl, by rw [getLinkStats_eq]; rfl,
      by rw [detectLoginForm_eq]; rfl⟩
  · intro doc
    unfold getPageTitle.checked
    rw [getPageTitle_eq]
    cases getPageTitle.findHtml doc.children with
    | none => exact ⟨"", rfl, rfl⟩
    | some head => exact ⟨_, findTitleChecked_eq "" head.children, rfl⟩
  · intro doc hno
    have h : doc.children.find? (fun c => c.isElement "html") = none := by
      rw [List.find?_eq_none]
      intro c hc
      simp [hno c hc]
    rw [getPageTitle_sent, headOf, h]
    rfl
  · intro doc html hhtml hno
    have h : html.children.find? (fun hc => hc.isElement "head") = none := by
      rw [List.find?_eq_none]
      intro c hc
      simp [hno c hc]
    rw [getPageTitle_sent, headOf, hhtml]
    simp [h]
  · intro doc head hhead hno
    have h : head.children.find? (fun c => c.isElement "title" && !c.children.isEmpty) =
        none := by
      rw [List.find?_eq_none]
      intro c hc
      simp [hno c hc]
    rw [getPageTitle_sent, hhead]
    simp [titleOf, h]
  · intro n c hc
    cases n with
    | mk t d a cs =>
      have := subtree_length_le_of_mem c cs hc
      rw [Node.subtree, List.length_cons]
      omega

/-- Witness of C20: a document without any `html` element, a document whose `html`
element has no head, a head without title, and the child `html` of the end-to-end
page against the page itself. -/
theorem extractors_total_witness :
    (getPageTitle Context.Background
      (examples.document [examples.element "title" [examples.text "stray"]])).sent = [""] ∧
    (getPageTitle Context.Background examples.titlesElsewhere).sent = [""] ∧
    (getPageTitle Context.Background examples.titlesBesideHead).sent = [""] ∧
    (examples.doctype "html").subtree.length < examples.page.subtree.length :=
  ⟨extractors_total.2.2.1
      (examples.document [examples.element "title" [examples.text "stray"]]) (by decide),
   extractors_total.2.2.2.1 examples.titlesElsewhere
      (examples.element "html"
        [examples.element "body" [examples.element "title" [examples.text "in the body"]]])
      rfl (by decide),
   extractors_total.2.2.2.2.1 examples.titlesBesideHead
      (examples.element "head"
        [examples.element "div" [examples.element "title" [examples.text "nested"]]])
      rfl (by decide),
   extractors_total.2.2.2.2.2 examples.page (examples.doctype "html")
      (List.mem_cons_self _ _)⟩

end analyzer

/-! ## The handler -/

namespace handler

open analyzer

/-- C18 (defect of the code): the outcome of `AnalyzeURLHandler` is fixed by the first
stage that fails. A body that fails JSON decoding gives status 400, success false and
the error "Invalid request payload"; a decoded request rejected by the validator gives
status 400, success false and an error that starts with "Validation failed: "; an
error of the analysis gives status 500, success false and an error that starts with
"Failed to analyze URL: "; an analysis that returns without error gives status 200,
success true and the `PageInfo` as data. The two 400 responses are the same for all
collaborators of the analyzer: the HTTP client takes no part in them. These four are
not all the outcomes: when the analysis of a decoded and validated request never
returns, the handler has counted the request as received and writes no response at
all, neither 500 nor 200; this is what happens for the request for
`http://example.com` whose context is cancelled before the extractors start. -/
theorem AnalyzeURLHandler_stages_or_hangs :
    (∀ (lib : url.Library) (env : Env) (codec : Codec) (ctx : Extractor → Context)
        (body e : String),
      codec.Decode body = .error e →
      AnalyzeURLHandler lib env codec ctx body =
        .responded 400 { Success := false, Data := none, Error := "Invalid request payload" }
          [.RequestInvalidCount]) ∧
    (∀ (lib : url.Library) (env : Env) (codec : Codec) (ctx : Extractor → Context)
        (body : String) (req : UrlAnalyzeRequest) (err : String),
      codec.Decode body = .ok req → codec.Struct req = some err →
      AnalyzeURLHandler lib env codec ctx body =
        .responded 400 { Success := false, Data := none, Error := "Validation failed: " ++ err }
          [.RequestInvalidCount]) ∧
    (∀ (lib : url.Library) (env : Env) (codec : Codec) (ctx : Extractor → Context)
        (body : String) (req : UrlAnalyzeRequest) (info : PageInfo) (err : String),
      codec.Decode body = .ok req → codec.Struct req = none →
      AnalyzeURL lib env ctx req.URL = .returned info (some err) →
      AnalyzeURLHandler lib env codec ctx body =
        .responded 500
          { Success := false, Data := none, Error := "Failed to analyze URL: " ++ err }
          [.RequestReceivedSuccessCount, .RequestAnalyzerFailureCount]) ∧
    (∀ (lib : url.Library) (env : Env) (codec : Codec) (ctx : Extractor → Context)
        (body : String) (req : UrlAnalyzeRequest) (info : PageInfo),
      codec.Decode body = .ok req → codec.Struct req = none →
      AnalyzeURL lib env ctx req.URL = .returned info none →
      AnalyzeURLHandler lib env codec ctx body =
        .responded 200 { Success := true, Data := some info, Error := "" }
          [.RequestReceivedSuccessCount, .RequestAnalyzerSuccessCount]) ∧
    (∀ (lib : url.Library) (env : Env) (codec : Codec) (ctx : Extractor → Context)
        (body : String) (req : UrlAnalyzeRequest),
      codec.Decode body = .ok req → codec.Struct req = none →
      AnalyzeURL lib env ctx req.URL = .blocked →
      AnalyzeURLHandler lib env codec ctx body = .hung [.RequestReceivedSuccessCount]) ∧
    (∀ (lib : url.Library) (env : Env) (codec : Codec) (ctx : Extractor → Context)
        (body : String) (req : UrlAnalyzeRequest) (r : http.Request) (resp : http.Response)
        (doc : html.Node) (parsedURL : url.URL),
      codec.Decode body = .ok req → codec.Struct req = none →
      env.NewRequestWithContext "GET" req.URL = .ok r → env.Do r = .ok resp →
      env.Parse resp.Body = .ok doc → lib.Parse req.URL = .ok parsedURL →
      (∃ e, ctx e .entry = true ∨ ctx e .publish = true) →
      AnalyzeURLHandler lib env codec ctx body = .hung [.RequestReceivedSuccessCount]) ∧
    AnalyzeURLHandler examples.library examples.env examples.codec examples.cancelled
        "\x7b\"url\":\"http://example.com\"\x7d" =
      .hung [.RequestReceivedSuccessCount] := by
  have hblocked : ∀ (lib : url.Library) (env : Env) (codec : Codec)
      (ctx : Extractor → Context) (body : String) (req : UrlAnalyzeRequest),
      codec.Decode body = .ok req → codec.Struct req = none →
      AnalyzeURL lib env ctx req.URL = .blocked →
      AnalyzeURLHandler lib env codec ctx body = .hung [.RequestReceivedSuccessCount] := by
    intro lib env codec ctx body req hd hv ha
    simp only [AnalyzeURLHandler, hd, hv, ha]
  refine ⟨?_, ?_, ?_, ?_, hblocked, ?_, ?_⟩
  · intro lib env codec ctx body e hd
    simp only [AnalyzeURLHandler, hd]
    rfl
  · intro lib env codec ctx body req err hd hv
    simp only [AnalyzeURLHandler, hd, hv]
    rfl
  · intro lib env codec ctx body req info err hd hv ha
    simp only [AnalyzeURLHandler, hd, hv, ha]
    rfl
  · intro lib env codec ctx body req info hd hv ha
    simp only [AnalyzeURLHandler, hd, hv, ha]
    rfl
  · intro lib env codec ctx body req r resp doc parsedURL hd hv hreq hdo hparse hbase hc
    exact hblocked lib env codec ctx body req hd hv
      (AnalyzeURL_blocked_of_cancel lib env ctx req.URL r resp doc parsedURL
        hreq hdo hparse hbase hc)
  · exact hblocked examples.library examples.env examples.codec examples.cancelled _
      ⟨"http://example.com"⟩ rfl rfl
      (AnalyzeURL_blocked_of_cancel examples.library examples.env examples.cancelled
        "http://example.com" ⟨"GET", "http://example.com"⟩ ⟨200, examples.pageHTML⟩
        examples.page examples.base rfl rfl rfl rfl ⟨.version, Or.inl rfl⟩)

/-- Witness of C18: with the example decoder and validator, a truncated body gives
400 "Invalid request payload", the URL `invalid-url` gives 400 "Validation failed:
...", both also with the failing client; the failing client gives 500 on a valid
request and the serving client gives 200 with the report of the end-to-end page; the
same valid request served by the same client with a cancelled context gets no
response, once through the blocked analysis and once through the cancellation that
the title extractor observes before publishing. -/
theorem AnalyzeURLHandler_stages_or_hangs_witness :
    AnalyzeURLHandler examples.library examples.failingEnv examples.codec
        (fun _ => Context.Background) "\x7b\"url\": \"https://example.com\"," =
      .responded 400 { Success := false, Data := none, Error := "Invalid request payload" }
        [.RequestInvalidCount] ∧
    AnalyzeURLHandler examples.library examples.failingEnv examples.codec
        (fun _ => Context.Background) "\x7b\"url\":\"invalid-url\"\x7d" =
      .responded 400
        { Success := false, Data := none,
          Error := "Validation failed: Field validation for URL failed on the url tag" }
        [.RequestInvalidCount] ∧
    AnalyzeURLHandler examples.library examples.failingEnv examples.codec
        (fun _ => Context.Background) "\x7b\"url\":\"http://example.com\"\x7d" =
      .responded 500
        { Success := false, Data := none,
          Error := "Failed to analyze URL: failed to fetch URL: mocked network error" }
        [.RequestReceivedSuccessCount, .RequestAnalyzerFailureCount] ∧
    AnalyzeURLHandler examples.library examples.env examples.codec
        (fun _ => Context.Background) "\x7b\"url\":\"http://example.com\"\x7d" =
      .responded 200
        { Success := true,
          Data := some
            { HTMLVersion := "HTML 5",
              Title := "Test Page",
              Headings := [("h1", 1), ("h2", 1), ("h3", 0), ("h4", 0), ("h5", 0), ("h6", 0)],
              Links := { Internal := 1, External := 1, Inaccessible := 1 },
              HasLogin := true },
          Error := "" }
        [.RequestReceivedSuccessCount, .RequestAnalyzerSuccessCount] ∧
    AnalyzeURLHandler examples.library examples.env examples.codec examples.cancelled
        "\x7b\"url\":\"http://example.com\"\x7d" =
      .hung [.RequestReceivedSuccessCount] ∧
    AnalyzeURLHandler examples.library examples.env examples.codec
        (fun e c => decide (e = .title ∧ c = .publish))
        "\x7b\"url\":\"http://example.com\"\x7d" =
      .hung [.RequestReceivedSuccessCount] :=
  ⟨AnalyzeURLHandler_stages_or_hangs.1 examples.library examples.failingEnv examples.codec
      (fun _ => Context.Background) _ "unexpected end of JSON input" rfl,
   AnalyzeURLHandler_stages_or_hangs.2.1 examples.library examples.failingEnv examples.codec
      (fun _ => Context.Background) _ ⟨"invalid-url"⟩ _ rfl rfl,
   AnalyzeURLHandler_stages_or_hangs.2.2.1 examples.library examples.failingEnv
      examples.codec (fun _ => Context.Background) _ ⟨"http://example.com"⟩ PageInfo.zero _
      rfl rfl (by decide),
   AnalyzeURLHandler_stages_or_hangs.2.2.2.1 examples.library examples.env examples.codec
      (fun _ => Context.Background) _ ⟨"http://example.com"⟩ _
      rfl rfl (by decide),
   AnalyzeURLHandler_stages_or_hangs.2.2.2.2.1 examples.library examples.env examples.codec
      examples.cancelled _ ⟨"http://example.com"⟩ rfl rfl (by decide),
   AnalyzeURLHandler_stages_or_hangs.2.2.2.2.2.1 examples.library examples.env
      examples.codec (fun e c => decide (e = .title ∧ c = .publish)) _
      ⟨"http://example.com"⟩ ⟨"GET", "http://example.com"⟩ ⟨200, examples.pageHTML⟩
      examples.page examples.base rfl rfl rfl rfl rfl rfl ⟨.title, Or.inr (by decide)⟩⟩

end handler

/-! ## Hosts and ports -/

namespace analyzer

open html

theorem foldRune_of_lt (c : Char) (h : c.toNat < 0x41) : unicode.foldRune c = c := by
  unfold unicode.foldRune
  rw [if_neg (by omega), if_neg (by omega), if_neg (by omega)]

theorem equalFoldList_append : ∀ (h h' p p' : List Char),
    strings.equalFoldList h h' = true →
    strings.equalFoldList (h ++ p) (h' ++ p') = strings.equalFoldList p p'
  | [], [], _, _, _ => rfl
  | [], _ :: _, _, _, hh => by simp [strings.equalFoldList] at hh
  | _ :: _, [], _, _, hh => by simp [strings.equalFoldList] at hh
  | c :: h, c' :: h', p, p', hh => by
    simp only [strings.equalFoldList, Bool.and_eq_true] at hh
    simp only [List.cons_append, strings.equalFoldList, hh.1, Bool.true_and]
    exact equalFoldList_append h h' p p' hh.2

theorem eq_of_equalFoldList_small : ∀ (p p' : List Char),
    (∀ c ∈ p, c.toNat < 0x41) → (∀ c ∈ p', c.toNat < 0x41) →
    strings.equalFoldList p p' = true → p = p'
  | [], [], _, _, _ => rfl
  | [], _ :: _, _, _, hh => by simp [strings.equalFoldList] at hh
  | _ :: _, [], _, _, hh => by simp [strings.equalFoldList] at hh
  | c :: p, c' :: p', hp, hp', hh => by
    simp only [strings.equalFoldList, Bool.and_eq_true, beq_iff_eq] at hh
    have hc := foldRune_of_lt c (hp c (List.mem_cons_self _ _))
    have hc' := foldRune_of_lt c' (hp' c' (List.mem_cons_self _ _))
    rw [hc, hc'] at hh
    rw [hh.1, eq_of_equalFoldList_small p p'
      (fun x hx => hp x (List.mem_cons_of_mem _ hx))
      (fun x hx => hp' x (List.mem_cons_of_mem _ hx)) hh.2]

theorem small_of_validOptionalPort (port : String) (h : url.validOptionalPort port = true) :
    ∀ c ∈ port.data, c.toNat < 0x41 := by
  unfold url.validOptionalPort at h
  cases hd : port.data with
  | nil => simp
  | cons c rest =>
    rw [hd] at h
    simp only [Bool.and_eq_true, beq_iff_eq, List.all_eq_true, decide_eq_true_eq] at h
    intro x hx
    rcases List.mem_cons.mp hx with rfl | hx
    · rw [h.1]; decide
    · have := h.2 x hx
      omega

theorem equalFold_port_ne (hostname hostname' port port' : String)
    (hh : strings.EqualFold hostname' hostname = true)
    (hp : url.validOptionalPort port = true) (hp' : url.validOptionalPort port' = true)
    (hne : port' ≠ port) :
    strings.EqualFold (hostname' ++ port') (hostname ++ port) = false := by
  rw [Bool.eq_false_iff]
  intro he
  unfold strings.EqualFold at he hh
  rw [String.data_append, String.data_append, equalFoldList_append _ _ _ _ hh] at he
  exact hne (String.ext (eq_of_equalFoldList_small _ _
    (small_of_validOptionalPort port' hp') (small_of_validOptionalPort port hp) he))

theorem toNat_ofNat_lower (n : Nat) (h1 : 0x41 ≤ n) (h2 : n ≤ 0x5A) :
    (Char.ofNat (n + 0x20)).toNat = n + 0x20 := by
  interval_cases n <;> rfl

theorem foldRune_eq_of_lowerASCII (c : Char) :
    unicode.foldRune c = unicode.foldRune (lowerASCII c) := by
  unfold lowerASCII
  by_cases hu : 0x41 ≤ c.toNat ∧ c.toNat ≤ 0x5A
  · rw [if_pos hu]
    have ht := toNat_ofNat_lower c.toNat hu.1 hu.2
    conv_lhs => unfold unicode.foldRune
    rw [if_pos hu]
    unfold unicode.foldRune
    rw [if_neg (by omega), if_neg (by omega), if_neg (by omega)]
  · rw [if_neg hu]

theorem equalFoldList_of_map_lower : ∀ (s t : List Char),
    s.map lowerASCII = t.map lowerASCII → strings.equalFoldList s t = true
  | [], [], _ => rfl
  | [], _ :: _, h => by simp at h
  | _ :: _, [], h => by simp at h
  | c :: s, d :: t, h => by
    simp only [List.map_cons, List.cons.injEq] at h
    simp only [strings.equalFoldList, Bool.and_eq_true, beq_iff_eq]
    refine ⟨?_, equalFoldList_of_map_lower s t h.2⟩
    rw [foldRune_eq_of_lowerASCII c, foldRune_eq_of_lowerASCII d, h.1]

theorem equalFold_of_sameUpToCase (s t : String) (h : SameUpToCase s t) :
    strings.EqualFold s t = true :=
  equalFoldList_of_map_lower _ _ h

theorem equalFoldBy_port_ne (table : Char → Char) (hostname hostname' port port' : String)
    (hh : strings.EqualFold hostname' hostname = true)
    (hp : url.validOptionalPort port = true) (hp' : url.validOptionalPort port' = true)
    (hne : port' ≠ port) :
    strings.EqualFoldBy table (hostname' ++ port') (hostname ++ port) = false := by
  rw [Bool.eq_false_iff]
  intro he
  have hh' := strings.equalFoldListBy_of_equalFoldList table _ _ hh
  unfold strings.EqualFoldBy at he
  rw [String.data_append, String.data_append,
    strings.equalFoldListBy_append table _ _ _ _ hh'] at he
  exact hne (String.ext (strings.eq_of_equalFoldListBy_ascii table _ _
    (small_of_validOptionalPort port' hp') (small_of_validOptionalPort port hp) he))

theorem equalFoldBy_of_sameUpToCase (table : Char → Char) (s t : String)
    (h : SameUpToCase s t) : strings.EqualFoldBy table s t = true :=
  strings.equalFoldListBy_of_equalFoldList table _ _ (equalFoldList_of_map_lower _ _ h)

theorem traverse_single_anchor (lib : url.Library) (baseURL : url.URL)
    (attrs : List Attribute) (attr : Attribute) (stats : LinkStats)
    (hfind : attrs.find? (fun a => a.Key = "href") = some attr) :
    getLinkStats.traverse lib baseURL (Node.mk .ElementNode "a" attrs []) stats =
      stats.bump (linkPolicy lib baseURL attr.Val) := by
  have hstep : getLinkStats.traverse lib baseURL (Node.mk .ElementNode "a" attrs []) stats =
      getLinkStats.rangeAttr lib baseURL attrs stats := by
    simp [getLinkStats.traverse, getLinkStats.traverseChildren]
  rw [hstep, rangeAttr_eq, hfind]

/-- C21: the hosts are compared as whole `Host` strings, port included. For every
base URL and every `a` element whose first href resolves to an http or https URL
whose host name equals that of the base ignoring case but whose port part differs
from that of the base (another port, or a port written where the base has none),
the anchor is counted external; when the resolved host differs from the base host at
most in letter case, whatever the two schemes, the anchor is counted internal.
Against the base `http://example.com`, given a library that resolves them as Go
does, `http://example.com:8080/x` and `http://example.com:80/` are external and
`https://example.com` and `HTTP://EXAMPLE.COM` are internal. -/
theorem getLinkStats_host_with_port :
    (∀ (lib : url.Library) (baseURL : url.URL) (attrs : List Attribute) (attr : Attribute)
        (stats : LinkStats) (scheme hostname hostname' port port' : String),
      attrs.find? (fun a => a.Key = "href") = some attr →
      strings.TrimSpace attr.Val ≠ "" →
      strings.HasPrefix (strings.TrimSpace attr.Val) "#" = false →
      Resolves lib baseURL (strings.TrimSpace attr.Val) scheme (hostname' ++ port') →
      (strings.ToLower scheme = "http" ∨ strings.ToLower scheme = "https") →
      baseURL.Host = hostname ++ port →
      strings.EqualFold hostname' hostname = true →
      url.validOptionalPort port = true → url.validOptionalPort port' = true →
      port' ≠ port →
      getLinkStats.traverse lib baseURL (Node.mk .ElementNode "a" attrs []) stats =
        { Internal := stats.Internal, External := stats.External + 1,
          Inaccessible := stats.Inaccessible }) ∧
    (∀ (lib : url.Library) (baseURL : url.URL) (attrs : List Attribute) (attr : Attribute)
        (stats : LinkStats) (scheme host : String),
      attrs.find? (fun a => a.Key = "href") = some attr →
      strings.TrimSpace attr.Val ≠ "" →
      strings.HasPrefix (strings.TrimSpace attr.Val) "#" = false →
      Resolves lib baseURL (strings.TrimSpace attr.Val) scheme host →
      (strings.ToLower scheme = "http" ∨ strings.ToLower scheme = "https") →
      SameUpToCase host baseURL.Host →
      getLinkStats.traverse lib baseURL (Node.mk .ElementNode "a" attrs []) stats =
        { Internal := stats.Internal + 1, External := stats.External,
          Inaccessible := stats.Inaccessible }) ∧
    (∀ lib : url.Library,
      Resolves lib examples.base "http://example.com:8080/x" "http" "example.com:8080" →
      Resolves lib examples.base "http://example.com:80/" "http" "example.com:80" →
      Resolves lib examples.base "https://example.com" "https" "example.com" →
      Resolves lib examples.base "HTTP://EXAMPLE.COM" "http" "EXAMPLE.COM" →
      (getLinkStats lib Context.Background examples.portPage examples.base).sent =
        [{ Internal := 2, External := 2, Inaccessible := 0 }]) := by
  refine ⟨?_, ?_, ?_⟩
  · intro lib baseURL attrs attr stats scheme hostname hostname' port port'
      hfind hne hp hr hs hbase hh hport hport' hdiff
    rw [traverse_single_anchor lib baseURL attrs attr stats hfind,
      linkPolicy_of_resolves lib baseURL attr.Val scheme (hostname' ++ port') hne hp hr]
    have hs' : ¬ (strings.ToLower scheme ≠ "http" ∧ strings.ToLower scheme ≠ "https") := by
      rintro ⟨h1, h2⟩
      exact hs.elim h1 h2
    rw [if_neg hs', hbase,
      equalFoldBy_port_ne lib.FoldClass hostname hostname' port port' hh hport hport' hdiff]
    rfl
  · intro lib baseURL attrs attr stats scheme host hfind hne hp hr hs hsame
    rw [traverse_single_anchor lib baseURL attrs attr stats hfind,
      linkPolicy_of_resolves lib baseURL attr.Val scheme host hne hp hr]
    have hs' : ¬ (strings.ToLower scheme ≠ "http" ∧ strings.ToLower scheme ≠ "https") := by
      rintro ⟨h1, h2⟩
      exact hs.elim h1 h2
    rw [if_neg hs', equalFoldBy_of_sameUpToCase lib.FoldClass host baseURL.Host hsame]
    rfl
  · intro lib h1 h2 h3 h4
    have hh : hrefs examples.portPage.subtree =
        ["http://example.com:8080/x", "http://example.com:80/", "https://example.com",
         "HTTP://EXAMPLE.COM"] := by decide
    have p1 : linkPolicy lib examples.base "http://example.com:8080/x" = .external := by
      rw [linkPolicy_of_resolves_ascii lib examples.base "http://example.com:8080/x" "http"
        "example.com:8080" (by decide) (by decide) h1 (by decide) (by decide)]
      decide
    have p2 : linkPolicy lib examples.base "http://example.com:80/" = .external := by
      rw [linkPolicy_of_resolves_ascii lib examples.base "http://example.com:80/" "http"
        "example.com:80" (by decide) (by decide) h2 (by decide) (by decide)]
      decide
    have p3 : linkPolicy lib examples.base "https://example.com" = .internal := by
      rw [linkPolicy_of_resolves_ascii lib examples.base "https://example.com" "https"
        "example.com" (by decide) (by decide) h3 (by decide) (by decide)]
      decide
    have p4 : linkPolicy lib examples.base "HTTP://EXAMPLE.COM" = .internal := by
      rw [linkPolicy_of_resolves_ascii lib examples.base "HTTP://EXAMPLE.COM" "http"
        "EXAMPLE.COM" (by decide) (by decide) h4 (by decide) (by decide)]
      decide
    rw [getLinkStats_background, hh]
    simp [p1, p2, p3, p4]

/-- Witness of C21: with the example library, the anchor to `example.com:8080` is
counted external against the base host `example.com` (host name `example.com`, port
parts `:8080` and none), the anchor to `EXAMPLE.COM` is counted internal, and the
page with the four anchors gets two internal and two external links. -/
theorem getLinkStats_host_with_port_witness :
    getLinkStats.traverse examples.libraryWithPorts examples.base
        (Node.mk .ElementNode "a" [⟨"", "href", "http://example.com:8080/x"⟩] [])
        ⟨0, 0, 0⟩ = ⟨0, 1, 0⟩ ∧
    getLinkStats.traverse examples.libraryWithPorts examples.base
        (Node.mk .ElementNode "a" [⟨"", "href", "HTTP://EXAMPLE.COM"⟩] [])
        ⟨0, 0, 0⟩ = ⟨1, 0, 0⟩ ∧
    (getLinkStats examples.libraryWithPorts Context.Background examples.portPage
        examples.base).sent = [⟨2, 2, 0⟩] :=
  ⟨getLinkStats_host_with_port.1 examples.libraryWithPorts examples.base
      [⟨"", "href", "http://example.com:8080/x"⟩] ⟨"", "href", "http://example.com:8080/x"⟩
      ⟨0, 0, 0⟩ "http" "example.com" "example.com" "" ":8080"
      rfl (by decide) (by decide) ⟨_, rfl, rfl, rfl⟩ (Or.inl (by decide)) rfl (by decide)
      (by decide) (by decide) (by decide),
   getLinkStats_host_with_port.2.1 examples.libraryWithPorts examples.base
      [⟨"", "href", "HTTP://EXAMPLE.COM"⟩] ⟨"", "href", "HTTP://EXAMPLE.COM"⟩
      ⟨0, 0, 0⟩ "http" "EXAMPLE.COM"
      rfl (by decide) (by decide) ⟨_, rfl, rfl, rfl⟩ (Or.inl (by decide))
      (by unfold SameUpToCase; decide),
   getLinkStats_host_with_port.2.2 examples.libraryWithPorts
      ⟨_, rfl, rfl, rfl⟩ ⟨_, rfl, rfl, rfl⟩ ⟨_, rfl, rfl, rfl⟩ ⟨_, rfl, rfl, rfl⟩⟩

end analyzer
